import Mathlib

/-!
Verification development for the Text-Leveling dynamic content generation
pipeline (AIStoryEngine / GameAIIntegrator / EventAdapter / PromptManager /
AIServiceConnector / CacheManager / ErrorHandler).

The JavaScript sources are shallowly embedded: JS objects whose fields may be
absent become structures with `Option` fields, JS string/number/boolean values
appearing in duck-typed positions become `JsVal`, JS `Map` becomes an
insertion-ordered association list, asynchronous network calls become explicit
outcome parameters, and `Date.now()` becomes an explicit `now : Nat` argument.
-/

namespace TextLeveling

/-- A primitive JS value as it appears in the duck-typed event fields
(`result.value` may be a boolean, a number or a string). -/
inductive JsVal
  | vBool (b : Bool)
  | vNum (n : Int)
  | vStr (s : String)
deriving Repr, DecidableEq

/-- JS truthiness of an optional string field: `undefined` and `""` are falsy. -/
def truthyStr (o : Option String) : Bool :=
  match o with
  | none => false
  | some s => s.length != 0

/-- JS `a || b` on two optional strings (falsy left operand selects right). -/
def jsOrStr (a b : Option String) : Option String :=
  if truthyStr a then a else b

/-- `needle` is an infix of the character list `hay`. -/
def listInfix (needle : List Char) : List Char → Bool
  | [] => needle.isEmpty
  | c :: rest => needle.isPrefixOf (c :: rest) || listInfix needle rest

/-- `needle` occurs as a substring of `hay` (models JS `String.includes`). -/
def strContains (hay needle : String) : Bool :=
  listInfix needle.toList hay.toList

/- ------------------------------------------------------------------
JS `Map` model: insertion-ordered association list with unique keys.
`Map.set` on an existing key overwrites in place (keeping the position),
otherwise appends; `Map.delete` removes the key; iteration follows list
order, which is insertion order.
------------------------------------------------------------------ -/

/-- JS `Map.prototype.set`: replace in place if the key exists, else append. -/
def mapSet {β : Type} : List (String × β) → String → β → List (String × β)
  | [], k, v => [(k, v)]
  | (k2, v2) :: rest, k, v =>
      if k2 = k then (k, v) :: rest else (k2, v2) :: mapSet rest k v

/-- JS `Map.prototype.get` (first binding of the key). -/
def mapGet {β : Type} : List (String × β) → String → Option β
  | [], _ => none
  | (k2, v2) :: rest, k => if k2 = k then some v2 else mapGet rest k

/-- JS `Map.prototype.has`. -/
def mapHas {β : Type} (m : List (String × β)) (k : String) : Bool :=
  (mapGet m k).isSome

/-- JS `Map.prototype.delete`. -/
def mapDelete {β : Type} : List (String × β) → String → List (String × β)
  | [], _ => []
  | (k2, v2) :: rest, k =>
      if k2 = k then mapDelete rest k else (k2, v2) :: mapDelete rest k

/- ------------------------------------------------------------------
Data model for generated events (src/ai/adapters/EventAdapter.js).
JS objects are duck-typed; each structure lists the fields the code reads,
each `Option` since the field may be absent. For array-valued fields,
`none` models both an absent field and a non-array value (the code collapses
the two with `!x || !Array.isArray(x)` checks).
------------------------------------------------------------------ -/

/-- A result object of a choice (tagged by its `type` field). -/
structure RawResult where
  type : Option String := none
  event_id : Option String := none
  attrKey : Option String := none  -- the JS field `attribute` (keyword in Lean)
  value : Option JsVal := none
  item_id : Option String := none
  amount : Option Int := none
  flag : Option String := none
deriving Repr, DecidableEq

/-- A choice of an event. Condition objects are never inspected by the
adapter, so their elements are modelled as opaque `JsVal`s. -/
structure RawChoice where
  text : Option String := none
  conditions : Option (List JsVal) := none
  results : Option (List RawResult) := none
deriving Repr, DecidableEq

/-- A generated game event as handled by the adapter and validator. -/
structure RawEvent where
  event_id : Option String := none
  title : Option String := none
  description : Option String := none
  choices : Option (List RawChoice) := none
deriving Repr, DecidableEq

/-- The fields of a previous event read by PromptManager._formatPreviousEvent. -/
structure EventSummary where
  title : Option String := none
  description : Option String := none
deriving Repr, DecidableEq

/-- An inventory item as read by PromptManager._formatInventory. -/
structure InventoryItem where
  id : Option String := none
  name : Option String := none
  amount : Option Int := none
deriving Repr, DecidableEq

/-- The player-state snapshot (attribute map, inventory, flag map). -/
structure PlayerState where
  attributes : Option (List (String × JsVal)) := none
  inventory : Option (List InventoryItem) := none
  flags : Option (List (String × JsVal)) := none
deriving Repr, DecidableEq

/-- A generation context as passed to the engine and the prompt builder. -/
structure GenContext where
  type : Option String := none
  location : Option String := none
  playerState : Option PlayerState := none
  previousEvents : List EventSummary := []
deriving Repr, DecidableEq

/- ------------------------------------------------------------------
EventAdapter (src/unnamed/part_003): JSON extraction and normalization.
`Date.now()` is the explicit `now` argument; `JSON.parse` is the host
runtime's parser and is passed in as the `parse` argument.
------------------------------------------------------------------ -/

/-- One base-36 digit character, lowercase (as JS `Number.toString(36)`). -/
def b36char (d : Nat) : Char :=
  if d < 10 then Char.ofNat (48 + d) else Char.ofNat (87 + d)

/-- Base-36 digit accumulation for `jsToString36`. -/
def b36Aux (n : Nat) (acc : List Char) : List Char :=
  if h : n = 0 then acc else b36Aux (n / 36) (b36char (n % 36) :: acc)
termination_by n
decreasing_by exact Nat.div_lt_self (Nat.pos_of_ne_zero h) (by norm_num)

/-- JS `n.toString(36)` for a natural number. -/
def jsToString36 (n : Nat) : String :=
  if n = 0 then "0" else String.mk (b36Aux n [])

/-- JS `s.slice(-n)`: the last `n` characters (the whole string if shorter). -/
def strTakeRight (s : String) (n : Nat) : String :=
  String.mk (s.toList.drop (s.toList.length - n))

/-- JS `location.replace(/\s+/g, "_")`: each maximal whitespace run becomes
one underscore. -/
def collapseWs : List Char → List Char
  | [] => []
  | c :: rest =>
      if c.isWhitespace then
        Char.ofNat 95 :: collapseWs (rest.dropWhile Char.isWhitespace)
      else c :: collapseWs rest
termination_by cs => cs.length
decreasing_by
  · have := (List.dropWhile_sublist (l := rest) Char.isWhitespace).length_le
    simp only [List.length_cons]
    omega
  · simp

/-- EventAdapter._generateEventId: `{type}_{location}_{base36 now suffix}`
(location lowercased, whitespace runs replaced by underscores). -/
def generateEventId (context : GenContext) (now : Nat) : String :=
  let t := if truthyStr context.type then context.type.getD "" else "event"
  let location :=
    if truthyStr context.location then
      String.mk (collapseWs ((context.location.getD "").toList.map Char.toLower))
    else "unknown"
  let timestamp := strTakeRight (jsToString36 now) 4
  t ++ "_" ++ location ++ "_" ++ timestamp

/-- JS `String.prototype.trim`: strip whitespace from both ends. -/
def jsTrim (s : String) : String :=
  String.mk
    (((s.toList.dropWhile Char.isWhitespace).reverse.dropWhile
        Char.isWhitespace).reverse)

/-- JS `content.indexOf(c)` as an optional index (indices count characters;
identical to UTF-16 indices for BMP-only content). -/
def firstIdxOf (s : String) (c : Char) : Option Nat :=
  s.toList.findIdx? (· = c)

/-- JS `content.lastIndexOf(c)` as an optional index. -/
def lastIdxOf (s : String) (c : Char) : Option Nat :=
  match s.toList.reverse.findIdx? (· = c) with
  | none => none
  | some i => some (s.toList.length - 1 - i)

/-- JS `content.substring(a, b)` for `a ≤ b`. -/
def strSlice (s : String) (a b : Nat) : String :=
  String.mk ((s.toList.drop a).take (b - a))

/-- The error message thrown by EventAdapter._extractJsonFromContent. -/
def jsonNotFoundMsg : String := "无法在内容中找到有效的JSON对象"

/-- EventAdapter._extractJsonFromContent: take the substring from the first
`{` (char 123) to the last `}` (char 125); error if either is missing or the
end is not after the start. -/
def extractJsonFromContent (content : String) : Except String String :=
  let jsonStart := firstIdxOf content (Char.ofNat 123)
  let jsonEnd := lastIdxOf content (Char.ofNat 125)
  match jsonStart, jsonEnd with
  | some i, some j =>
      if j ≤ i then .error jsonNotFoundMsg else .ok (strSlice content i (j + 1))
  | some _, none => .error jsonNotFoundMsg
  | none, _ => .error jsonNotFoundMsg

/-- The result `{type: "next_event", event_id: "default_next"}` synthesized
for missing or empty result arrays. -/
def defaultNextResult : RawResult :=
  { type := some ("next_event"), event_id := some ("default_next") }

/-- The continue-choice synthesized for missing or empty choice arrays. -/
def continueChoice : RawChoice :=
  { text := some ("继续"), conditions := some [],
    results := some [defaultNextResult] }

/-- The `switch (result.type)` block of EventAdapter._validateAndEnrichResult:
fill the type-specific required fields with safe defaults. -/
def enrichTypedResult (result : RawResult) : RawResult :=
  let t := result.type.getD ""
  if t = "next_event" then
    if truthyStr result.event_id then result
    else { result with event_id := some ("default_next") }
  else if t = "attribute_change" then
    let r1 :=
      if truthyStr result.attrKey then result
      else { result with attrKey := some ("unknown") }
    if r1.value = none then { r1 with value := some (JsVal.vNum 0) } else r1
  else if t = "item_add" ∨ t = "item_remove" then
    let r1 :=
      if truthyStr result.item_id then result
      else { result with item_id := some ("unknown") }
    -- `!result.amount || result.amount <= 0` (undefined and 0 are falsy)
    match r1.amount with
    | none => { r1 with amount := some 1 }
    | some a => if a ≤ 0 then { r1 with amount := some 1 } else r1
  else if t = "flag_set" then
    let r1 :=
      if truthyStr result.flag then result
      else { result with flag := some ("unknown") }
    if r1.value = none then { r1 with value := some (JsVal.vBool true) } else r1
  else result

/-- EventAdapter._validateAndEnrichResult: default the tag to `next_event`,
then run the type switch. -/
def validateAndEnrichResult (result : RawResult) : RawResult :=
  enrichTypedResult
    (if truthyStr result.type then result
     else { result with type := some ("next_event") })

/-- EventAdapter._validateAndEnrichChoice. -/
def validateAndEnrichChoice (choice : RawChoice) : RawChoice :=
  let choice :=
    if truthyStr choice.text then choice
    else { choice with text := some ("未命名选项") }
  let choice :=
    match choice.conditions with
    | none => { choice with conditions := some [] }
    | some _ => choice
  let choice :=
    match choice.results with
    | none => { choice with results := some [defaultNextResult] }
    | some [] => { choice with results := some [defaultNextResult] }
    | some _ => choice
  { choice with
    results := some ((choice.results.getD []).map validateAndEnrichResult) }

/-- EventAdapter._validateAndEnrichEvent (normalization). -/
def validateAndEnrichEvent (event : RawEvent) (context : GenContext)
    (now : Nat) : RawEvent :=
  let event :=
    if truthyStr event.event_id then event
    else { event with event_id := some (generateEventId context now) }
  let event :=
    if truthyStr event.title then event
    else { event with title := some ("未命名事件") }
  let event :=
    if truthyStr event.description then event
    else { event with description := some ("无描述") }
  let event :=
    match event.choices with
    | none => { event with choices := some [continueChoice] }
    | some [] => { event with choices := some [continueChoice] }
    | some _ => event
  { event with
    choices := some ((event.choices.getD []).map validateAndEnrichChoice) }

/-- EventAdapter.adaptToGameEvent: extract, parse, normalize; any failure is
rethrown with the `适配事件失败` prefix. -/
def adaptToGameEvent (parse : String → Except String RawEvent)
    (content : String) (context : GenContext) (now : Nat) :
    Except String RawEvent :=
  match extractJsonFromContent content with
  | .error m => .error ("适配事件失败: " ++ m)
  | .ok jsonContent =>
      match parse jsonContent with
      | .error m => .error ("适配事件失败: " ++ m)
      | .ok event => .ok (validateAndEnrichEvent event context now)

/-- What EventAdapter.adaptPartialContent hands to the stream callback:
either a parsed (un-normalized!) event or the partial marker
`{partial: true, text}`. -/
inductive PartialOut
  | parsed (e : RawEvent)
  | partialText (text : String)
deriving Repr, DecidableEq

/-- EventAdapter.adaptPartialContent: accumulate the chunk onto the stored
partial content (first component of the returned pair is the value handed to
the callback, second is the new accumulated state). -/
def adaptPartialContent (parse : String → Except String RawEvent)
    (partialContent : String) (chunk : String) : PartialOut × String :=
  let acc := partialContent ++ chunk
  match extractJsonFromContent acc with
  | .error _ => (.partialText acc, acc)
  | .ok jsonContent =>
      match parse jsonContent with
      | .error _ => (.partialText acc, acc)
      | .ok ev => (.parsed ev, acc)

/-- EventAdapter.getFinalContent: return the accumulated content, reset state. -/
def getFinalContent (partialContent : String) : String × String :=
  (partialContent, "")

/- ------------------------------------------------------------------
PromptManager (src/ai/prompts/PromptManager.js). The template map is the
`this.templates` object (constructor option `templates` merged with the
defaults); it is threaded as an explicit association list since the claims
do not depend on the default template texts.
------------------------------------------------------------------ -/

/-- Replace every occurrence of a non-empty pattern, left to right, without
re-scanning replacements (JS `s.replace(/pat/g, rep)` for a literal
pattern). The fuel argument (initially the list length, an upper bound on
the number of consumed characters) keeps the recursion structural. -/
def replaceAllAux (pat rep : List Char) : Nat → List Char → List Char
  | _, [] => []
  | 0, l => l
  | fuel + 1, c :: rest =>
      if pat.isPrefixOf (c :: rest) then
        rep ++ replaceAllAux pat rep fuel ((c :: rest).drop pat.length)
      else c :: replaceAllAux pat rep fuel rest

/-- JS `s.replace(/pattern/g, replacement)` for a literal pattern (all the
patterns the PromptManager uses are non-empty placeholder names). -/
def replaceAll (s pattern replacement : String) : String :=
  if pattern.toList.isEmpty then s
  else String.mk (replaceAllAux pattern.toList replacement.toList
    s.toList.length s.toList)

/-- Display of a JS primitive inside a template literal. -/
def JsVal.display : JsVal → String
  | .vBool b => cond b ("true") ("false")
  | .vNum n => toString n
  | .vStr s => s

/-- PromptManager._formatAttributes: `key: value` pairs comma-joined,
`无特殊属性` when the attribute map is absent. -/
def formatAttributes (attributes : Option (List (String × JsVal))) : String :=
  match attributes with
  | none => "无特殊属性"
  | some l =>
      String.intercalate (", ")
        (l.map (fun kv => kv.1 ++ ": " ++ kv.2.display))

/-- PromptManager._formatInventory: `name xN` comma-joined, `空` when the
inventory is absent or empty. -/
def formatInventory (inventory : Option (List InventoryItem)) : String :=
  match inventory with
  | none => "空"
  | some [] => "空"
  | some l =>
      String.intercalate (", ")
        (l.map (fun item =>
          (match jsOrStr item.name item.id with
           | some s => s
           | none => "undefined") ++
          (match item.amount with
           | some a => if 1 < a then " x" ++ toString a else ""
           | none => "")))

/-- PromptManager._formatFlags: only flags strictly equal to `true` are kept
and their names comma-joined; `无标记` when the flag map is absent or has no
keys at all. -/
def formatFlags (flags : Option (List (String × JsVal))) : String :=
  match flags with
  | none => "无标记"
  | some [] => "无标记"
  | some l =>
      String.intercalate (", ")
        ((l.filter (fun kv => kv.2 == JsVal.vBool true)).map (fun kv => kv.1))

/-- PromptManager._formatPreviousEvent: `title: description` with defaults. -/
def formatPreviousEvent (event : EventSummary) : String :=
  (if truthyStr event.title then event.title.getD "" else "未命名事件") ++
    ": " ++
    (if truthyStr event.description then event.description.getD "" else "无描述")

/-- PromptManager._fillTemplate: substitute the placeholders that apply. -/
def fillTemplate (template : String) (context : GenContext) : String :=
  let t1 :=
    if truthyStr context.location then
      replaceAll template ("{location}") (context.location.getD "")
    else template
  let t2 :=
    if truthyStr context.type then
      replaceAll t1 ("{eventType}") (context.type.getD "")
    else t1
  let t3 :=
    match context.playerState with
    | none => t2
    | some ps =>
        replaceAll
          (replaceAll
            (replaceAll t2 ("{playerAttributes}") (formatAttributes ps.attributes))
            ("{playerInventory}") (formatInventory ps.inventory))
          ("{playerFlags}") (formatFlags ps.flags)
  match context.previousEvents.getLast? with
  | some ev => replaceAll t3 ("{previousEvent}") (formatPreviousEvent ev)
  | none => replaceAll t3 ("{previousEvent}") ("无前置事件")

/-- PromptManager._buildSystemMessage: switch on the raw `context.type`. -/
def buildSystemMessage (templates : List (String × String))
    (context : GenContext) : Option String :=
  match context.type with
  | some t =>
      if t = "exploration" then mapGet templates ("system_exploration")
      else if t = "encounter" then mapGet templates ("system_encounter")
      else if t = "dialogue" then mapGet templates ("system_dialogue")
      else if t = "combat" then mapGet templates ("system_combat")
      else if t = "puzzle" then mapGet templates ("system_puzzle")
      else if t = "rest" then mapGet templates ("system_rest")
      else mapGet templates ("system_default")
  | none => mapGet templates ("system_default")

/-- A rendered prompt `{systemMessage, userMessage}` (the system message may
be `undefined` when no matching system template is registered). -/
structure Prompt where
  systemMessage : Option String
  userMessage : String
deriving Repr, DecidableEq

/-- PromptManager.buildPrompt. A missing user template (after default
fallback) makes `_fillTemplate` dereference `undefined` — a TypeError,
modelled as the error branch. -/
def buildPrompt (templates : List (String × String)) (context : GenContext) :
    Except String Prompt :=
  let eventType := if truthyStr context.type then context.type.getD "" else "exploration"
  let t1 := mapGet templates (eventType ++ "_template")
  let template := if truthyStr t1 then t1 else mapGet templates ("default_template")
  match template with
  | none => .error ("TypeError: template is undefined")
  | some tpl =>
      .ok { systemMessage := buildSystemMessage templates context,
            userMessage := fillTemplate tpl context }

/- ------------------------------------------------------------------
ErrorHandler (src/ai/utils/ErrorHandler.js): error classification and the
retry predicates. A JS Error is `{code?, message}`.
------------------------------------------------------------------ -/

/-- A JS error as inspected by ErrorHandler.getErrorType. -/
structure JsError where
  code : Option String := none
  message : String := ""
deriving Repr, DecidableEq

/-- ErrorHandler.getErrorType: message/code heuristics, first match wins. -/
def getErrorType (error : Option JsError) : String :=
  match error with
  | none => "unknown_error"
  | some e =>
      if e.code = some ("ECONNREFUSED") || e.code = some ("ECONNRESET")
          || strContains e.message ("连接") then "api_connection_error"
      else if e.code = some ("ETIMEDOUT") || strContains e.message ("timeout")
          || strContains e.message ("超时") then "timeout_error"
      else if strContains e.message ("JSON") || strContains e.message ("解析")
          || strContains e.message ("parse") then "content_parsing_error"
      else if strContains e.message ("验证") || strContains e.message ("validate")
          || strContains e.message ("schema") then "content_validation_error"
      else if strContains e.message ("rate") || strContains e.message ("limit")
          || strContains e.message ("限制") then "api_limit_error"
      else "unknown_error"

/- ------------------------------------------------------------------
AIServiceConnector (src/ai/services/AIServiceConnector.js). The network is
modelled as a per-attempt outcome function; `_fetchWithTimeout` races the
fetch against the timeout timer.
------------------------------------------------------------------ -/

/-- Connector construction options (after constructor defaulting). -/
structure ConnectorConfig where
  apiKey : String := ""
  model : String := "free:QwQ-32B"
  endpoint : String := "https://api.suanli.cn/v1/chat/completions"
  maxRetries : Nat := 3
  timeout : Nat := 30000
  maxTokens : Nat := 2000
deriving Repr, DecidableEq

/-- The observable shape of one HTTP request issued by the connector:
whether the body sets `stream: true`, and whether an abort timer guards it
(`some t` iff the call goes through `_fetchWithTimeout` with timeout `t`). -/
structure ApiRequest where
  url : String
  streamFlag : Bool
  timeoutMs : Option Nat
deriving Repr, DecidableEq

/-- The request issued by AIServiceConnector.generateContent: sent via
`_fetchWithTimeout(this.endpoint, options, this.timeout)`. -/
def generateContentRequest (cfg : ConnectorConfig) : ApiRequest :=
  { url := cfg.endpoint, streamFlag := false, timeoutMs := some cfg.timeout }

/-- The request issued by AIServiceConnector.streamContent: sent via a plain
`fetch(this.endpoint, ...)` with `stream: true` in the body and no
AbortController and no timer. -/
def streamContentRequest (cfg : ConnectorConfig) : ApiRequest :=
  { url := cfg.endpoint, streamFlag := true, timeoutMs := none }

/-- What one fetch would deliver if allowed to finish, plus how long it
takes. -/
inductive FetchOutcome
  | fail (e : JsError)
  | respNotOk (status : Nat) (statusText : String) (body : String)
  | respEmptyChoices
  | respOk (content : String)
deriving Repr, DecidableEq

/-- AIServiceConnector._fetchWithTimeout: if the underlying fetch has not
finished when the timer fires, the request is aborted and the AbortError is
rethrown as `请求超时`. -/
def fetchWithTimeout (duration : Nat) (outcome : FetchOutcome)
    (timeout : Nat) : Except JsError FetchOutcome :=
  if timeout ≤ duration then .error { code := none, message := "请求超时" }
  else
    match outcome with
    | .fail e => .error e
    | o => .ok o

/-- Response handling inside one generateContent attempt (non-2xx and empty
choice lists are thrown as errors; success returns the trimmed content). -/
def processResponse (o : FetchOutcome) : Except JsError String :=
  match o with
  | .fail e => .error e
  | .respNotOk status statusText body =>
      .error { code := none,
               message := "API请求失败: " ++ toString status ++ " " ++
                 statusText ++ ", " ++ body }
  | .respEmptyChoices => .error { code := none, message := "API返回了空的响应" }
  | .respOk content => .ok (jsTrim content)

/-- The accumulated result of a (possibly retried) generateContent call:
final result, number of requests issued, and backoff delays slept. -/
structure ConnResult where
  result : Except JsError String
  requests : Nat
  delays : List Nat
deriving Repr

/-- AIServiceConnector.generateContent from retry counter `retries`: on
failure retry while `retries < maxRetries`, sleeping `2^retries * 1000` ms,
each attempt an independent fresh request (`attempt` indexes them). -/
def generateContentFrom (attempt : Nat → FetchOutcome) (maxRetries : Nat)
    (retries : Nat) : ConnResult :=
  match processResponse (attempt retries) with
  | .ok content => { result := .ok content, requests := 1, delays := [] }
  | .error e =>
      if h : retries < maxRetries then
        let rec_ := generateContentFrom attempt maxRetries (retries + 1)
        { result := rec_.result, requests := rec_.requests + 1,
          delays := (2 ^ retries * 1000) :: rec_.delays }
      else
        { result := .error ⟨none, "AI请求失败，已达到最大重试次数: " ++ e.message⟩,
          requests := 1, delays := [] }
termination_by maxRetries - retries
decreasing_by omega

/-- AIServiceConnector.generateContent (entry point: `retries = 0`). -/
def generateContent (attempt : Nat → FetchOutcome) (maxRetries : Nat) :
    ConnResult :=
  generateContentFrom attempt maxRetries 0

/- ------------------------------------------------------------------
CacheManager (src/ai/utils/CacheManager.js). `this.cache` and
`this.accessTimes` are JS Maps (insertion-ordered); `Date.now()` is the
explicit `now` argument of each operation.
------------------------------------------------------------------ -/

/-- Cached data: an opaque payload plus the mutable `tags` array that
`tagItem` creates on demand. -/
structure CacheData where
  payload : String := ""
  tags : Option (List String) := none
deriving Repr, DecidableEq

/-- A cache entry `{data, timestamp}`. -/
structure CacheItem where
  data : CacheData
  timestamp : Nat
deriving Repr, DecidableEq

/-- The mutable state of a CacheManager instance (hit/miss counters omitted:
no claim mentions them). -/
structure CacheState where
  cache : List (String × CacheItem)
  accessTimes : List (String × Nat)
  maxCacheSize : Nat
  expirationTime : Nat
deriving Repr, DecidableEq

/-- The CacheManager constructor (defaults: 100 entries, 1 hour TTL). -/
def freshCache (maxCacheSize : Nat := 100) (expirationTime : Nat := 3600000) :
    CacheState :=
  { cache := [], accessTimes := [], maxCacheSize := maxCacheSize,
    expirationTime := expirationTime }

/-- ToInt32 as applied by `hash = hash & hash` and `<< 5` in JS. -/
def toInt32 (n : Int) : Int :=
  let r := n % 4294967296
  if r ≥ 2147483648 then r - 4294967296 else r

/-- One step of CacheManager._generateKey's rolling hash:
`hash = ((hash << 5) - hash) + char; hash = hash & hash`. -/
def hashStep (h : Int) (c : Nat) : Int :=
  toInt32 (toInt32 (h * 32) - h + c)

/-- CacheManager._generateKey: 32-bit rolling hash of the prompt, rendered
in decimal (char codes modelled as codepoints; identical for BMP input). -/
def generateKey (prompt : String) : String :=
  toString (prompt.toList.foldl (fun h c => hashStep h c.toNat) 0)

/-- CacheManager.get: `null` on a missing or expired key (an expired entry is
deleted from both maps); a hit refreshes the access time. Returns the value
handed back plus the successor state. -/
def cacheGet (st : CacheState) (prompt : String) (now : Nat) :
    Option CacheData × CacheState :=
  let key := generateKey prompt
  match mapGet st.cache key with
  | none => (none, st)
  | some item =>
      if st.expirationTime < now - item.timestamp then
        (none, { st with cache := mapDelete st.cache key,
                         accessTimes := mapDelete st.accessTimes key })
      else
        (some item.data,
         { st with accessTimes := mapSet st.accessTimes key now })

/-- The LRU scan of CacheManager._evictLRU: first entry of `accessTimes`
with a strictly smaller time than everything before it (i.e. the first
entry holding the minimum). -/
def evictScan (ats : List (String × Nat)) : Option (String × Nat) :=
  ats.foldl
    (fun acc kv =>
      match acc with
      | none => some kv
      | some best => if kv.2 < best.2 then some kv else acc)
    none

/-- CacheManager._evictLRU: delete the oldest-accessed key from both maps
(the JS guard `if (oldestKey)` skips falsy keys — `null` and `""`). -/
def evictLRU (st : CacheState) : CacheState :=
  if st.cache.length = 0 then st
  else
    match evictScan st.accessTimes with
    | none => st
    | some best =>
        if best.1 = "" then st
        else { st with cache := mapDelete st.cache best.1,
                       accessTimes := mapDelete st.accessTimes best.1 }

/-- CacheManager.set: evict first when full, then insert and stamp. -/
def cacheSet (st : CacheState) (prompt : String) (data : CacheData)
    (now : Nat) : CacheState :=
  let key := generateKey prompt
  let st := if st.maxCacheSize ≤ st.cache.length then evictLRU st else st
  { st with cache := mapSet st.cache key (CacheItem.mk data now),
            accessTimes := mapSet st.accessTimes key now }

/-- CacheManager.clear. -/
def cacheClear (st : CacheState) : CacheState :=
  { st with cache := [], accessTimes := [] }

/-- CacheManager.clearExpired: purge every entry past its TTL from both maps
(an access-time key is deleted exactly when its cache entry is expired). -/
def cacheClearExpired (st : CacheState) (now : Nat) : CacheState :=
  { st with
    cache := st.cache.filter
      (fun kv => ! decide (st.expirationTime < now - kv.2.timestamp)),
    accessTimes := st.accessTimes.filter
      (fun kv =>
        match mapGet st.cache kv.1 with
        | some item => ! decide (st.expirationTime < now - item.timestamp)
        | none => true) }

/-- CacheManager.tagItem: extend the entry's tag list in place (dedup). -/
def tagItem (st : CacheState) (prompt : String) (tags : List String) :
    CacheState :=
  let key := generateKey prompt
  match mapGet st.cache key with
  | none => st
  | some item =>
      let oldTags := item.data.tags.getD []
      let newTags := tags.foldl
        (fun acc t => if acc.contains t then acc else acc ++ [t]) oldTags
      let newItem := CacheItem.mk { item.data with tags := some newTags } item.timestamp
      { st with cache := mapSet st.cache key newItem }

/-- One externally visible cache operation, with its `Date.now()` value. -/
inductive CacheOp
  | get (prompt : String) (now : Nat)
  | set (prompt : String) (data : CacheData) (now : Nat)
  | clear
  | clearExpired (now : Nat)
  | tag (prompt : String) (tags : List String)
deriving Repr

/-- Apply one operation (the value returned by `get` is discarded). -/
def applyOp (st : CacheState) (op : CacheOp) : CacheState :=
  match op with
  | .get prompt now => (cacheGet st prompt now).2
  | .set prompt data now => cacheSet st prompt data now
  | .clear => cacheClear st
  | .clearExpired now => cacheClearExpired st now
  | .tag prompt tags => tagItem st prompt tags

/-- Apply a whole operation sequence, left to right. -/
def applyOps (st : CacheState) (ops : List CacheOp) : CacheState :=
  ops.foldl applyOp st

/- ------------------------------------------------------------------
AIStoryEngine (src/unnamed/part_002 — AIStoryEngine.js). generateEvent is
instrumented with the number of network requests it issues; the source
performs no cache operation anywhere in the pipeline, so none appear.
------------------------------------------------------------------ -/

/-- AIStoryEngine._validateEvent on the choices array (index for messages). -/
def validateChoices : Nat → List RawChoice → Except String Unit
  | _, [] => .ok ()
  | i, c :: cs =>
      if truthyStr c.text = false then
        .error ("选项 " ++ toString i ++ " 缺少text属性")
      else
        match c.results with
        | some (_ :: _) => validateChoices (i + 1) cs
        | _ => .error ("选项 " ++ toString i ++ " 缺少有效的results数组")

/-- AIStoryEngine._validateEvent: throws unless the event has truthy
`event_id`/`title`/`description`, a non-empty choices array, and every
choice has truthy text and a non-empty results array. -/
def validateEvent (event : RawEvent) : Except String Unit :=
  if truthyStr event.event_id = false then .error ("事件缺少event_id")
  else if truthyStr event.title = false then .error ("事件缺少title")
  else if truthyStr event.description = false then .error ("事件缺少description")
  else
    match event.choices with
    | some (c :: cs) => validateChoices 0 (c :: cs)
    | _ => .error ("事件缺少有效的choices数组")

/-- The context the engine hands to buildPrompt
(`type: context.type || 'exploration'`). -/
def engineContext (context : GenContext) : GenContext :=
  { context with
    type := some (if truthyStr context.type then context.type.getD "" else "exploration") }

/-- AIStoryEngine.generateEvent: build prompt, call the service (with the
connector's internal retries), adapt, validate; any failure is rethrown as
`生成事件失败: ...`. The second component counts network requests issued.
The source consults no cache at any point. (`stateTracker.updateState` only
records a snapshot inside the tracker and cannot affect the result.) -/
def engineGenerateEvent (templates : List (String × String))
    (attempt : Nat → FetchOutcome) (maxRetries : Nat)
    (parse : String → Except String RawEvent) (context : GenContext)
    (now : Nat) : Except JsError RawEvent × Nat :=
  match buildPrompt templates (engineContext context) with
  | .error m => (.error ⟨none, "生成事件失败: " ++ m⟩, 0)
  | .ok _prompt =>
      let conn := generateContent attempt maxRetries
      match conn.result with
      | .error e => (.error ⟨none, "生成事件失败: " ++ e.message⟩, conn.requests)
      | .ok content =>
          match adaptToGameEvent parse content context now with
          | .error m => (.error ⟨none, "生成事件失败: " ++ m⟩, conn.requests)
          | .ok gameEvent =>
              match validateEvent gameEvent with
              | .error m => (.error ⟨none, "生成事件失败: " ++ m⟩, conn.requests)
              | .ok _ => (.ok gameEvent, conn.requests)

/-- A value handed to the streamEvent callback. -/
inductive CbVal
  | ev (e : RawEvent)
  | partialParsed (e : RawEvent)
  | partialText (text : String)
  | errObj (message : String)
deriving Repr, DecidableEq

/-- A streaming service run: the delta fragments streamContent hands to its
callback (SSE line framing already decoded), and an optional error thrown
after them. -/
structure StreamInput where
  chunks : List String
  failure : Option JsError := none

/-- The per-chunk callback loop of AIStoryEngine.streamEvent: each chunk is
fed through adaptPartialContent, the result forwarded with isFinal=false. -/
def runPartials (parse : String → Except String RawEvent) :
    List String → String → List (CbVal × Bool) × String
  | [], st => ([], st)
  | c :: cs, st =>
      let (out, st2) := adaptPartialContent parse st c
      let v : CbVal :=
        match out with
        | .parsed e => .partialParsed e
        | .partialText t => .partialText t
      let (rest, st3) := runPartials parse cs st2
      ((v, false) :: rest, st3)

/-- AIStoryEngine.streamEvent: stream, adapt each chunk, then finalize,
adapt, validate and deliver the event with isFinal=true; on any failure the
catch block delivers `{error: error.message}` with isFinal=true. Returns
the list of (value, isFinal) deliveries to the caller's callback. -/
def engineStreamEvent (templates : List (String × String))
    (stream : StreamInput) (parse : String → Except String RawEvent)
    (context : GenContext) (now : Nat) : List (CbVal × Bool) :=
  match buildPrompt templates (engineContext context) with
  | .error m => [(.errObj m, true)]
  | .ok _prompt =>
      let (partials, acc) := runPartials parse stream.chunks ""
      match stream.failure with
      | some e => partials ++ [(.errObj e.message, true)]
      | none =>
          match adaptToGameEvent parse (getFinalContent acc).1 context now with
          | .error m => partials ++ [(.errObj m, true)]
          | .ok gameEvent =>
              match validateEvent gameEvent with
              | .error m => partials ++ [(.errObj m, true)]
              | .ok _ => partials ++ [(.ev gameEvent, true)]

/- ------------------------------------------------------------------
GameAIIntegrator (src/unnamed/part_005). The game collaborators are read
through an explicit snapshot.
------------------------------------------------------------------ -/

/-- The game-side inputs the integrator reads (player store, event store). -/
structure GameSnapshot where
  playerState : PlayerState
  currentLocation : Option String := none
  recentEvents : List EventSummary := []
  lastEventId : Option String := none
deriving Repr

/-- Generation options for integrator calls (the `options.context` spread is
not modelled; claims quantify over contexts directly). -/
structure GenOptions where
  type : Option String := none
  location : Option String := none
deriving Repr, DecidableEq

/-- GameAIIntegrator._createFallbackEvent. -/
def createFallbackEvent (options : GenOptions) (game : GameSnapshot)
    (now : Nat) : RawEvent :=
  let location :=
    (jsOrStr options.location (jsOrStr game.currentLocation (some ("未知地点")))).getD ""
  let timestamp := strTakeRight (jsToString36 now) 4
  let eventId := "fallback_" ++
    String.mk (collapseWs (location.toList.map Char.toLower)) ++ "_" ++ timestamp
  { event_id := some eventId,
    title := some ("意外的发现"),
    description := some ("在前行的过程中，你遇到了一些意想不到的情况。可能是由于环境变化或是你的感知出现了偏差，周围的景象变得有些模糊不清。你需要决定如何应对这个情况。"),
    choices := some
      [{ text := some ("环顾四周"), conditions := some [],
         results := some
           [{ type := some ("next_event"),
              event_id := some ((jsOrStr game.lastEventId (some ("game_intro"))).getD "") }] },
       { text := some ("继续前进"), conditions := some [],
         results := some
           [{ type := some ("next_event"),
              event_id := some ("exploration_continue") }] }] }

/-- The context GameAIIntegrator builds for the engine. -/
def integratorContext (options : GenOptions) (game : GameSnapshot) :
    GenContext :=
  { type := some (if truthyStr options.type then options.type.getD "" else "exploration"),
    location := jsOrStr options.location (jsOrStr game.currentLocation (some ("未知地点"))),
    playerState := some game.playerState,
    previousEvents := game.recentEvents }

/-- GameAIIntegrator.generateEvent: any error from the engine is caught and
replaced by the fallback event. Second component: network requests issued. -/
def integratorGenerateEvent (game : GameSnapshot)
    (templates : List (String × String)) (attempt : Nat → FetchOutcome)
    (maxRetries : Nat) (parse : String → Except String RawEvent)
    (options : GenOptions) (now : Nat) : RawEvent × Nat :=
  match engineGenerateEvent templates attempt maxRetries parse
      (integratorContext options game) now with
  | (.ok ev, n) => (ev, n)
  | (.error _, n) => (createFallbackEvent options game now, n)

/-- GameAIIntegrator.streamEvent: forwards every engine delivery verbatim to
the caller's callback (its own catch never fires — the engine catches all
its failures internally and reports them as `{error}` objects). -/
def integratorStreamEvent (game : GameSnapshot)
    (templates : List (String × String)) (stream : StreamInput)
    (parse : String → Except String RawEvent) (options : GenOptions)
    (now : Nat) : List (CbVal × Bool) :=
  engineStreamEvent templates stream parse (integratorContext options game) now

/- ------------------------------------------------------------------
Verification helpers: decidable normal-form predicates characterizing the
adapter's normalized output (used for the invariant and idempotence
claims).
------------------------------------------------------------------ -/

/-- A result object is in adapter normal form. -/
def resultEnriched (r : RawResult) : Bool :=
  truthyStr r.type &&
  (let t := r.type.getD ""
   if t = "next_event" then truthyStr r.event_id
   else if t = "attribute_change" then truthyStr r.attrKey && r.value.isSome
   else if t = "item_add" ∨ t = "item_remove" then
     truthyStr r.item_id &&
       (match r.amount with
        | some a => decide (0 < a)
        | none => false)
   else if t = "flag_set" then truthyStr r.flag && r.value.isSome
   else true)

/-- A choice is in adapter normal form. -/
def choiceEnriched (c : RawChoice) : Bool :=
  truthyStr c.text && c.conditions.isSome &&
  (match c.results with
   | some rs => !rs.isEmpty && rs.all resultEnriched
   | none => false)

/-- An event is in adapter normal form. -/
def eventEnriched (e : RawEvent) : Bool :=
  truthyStr e.event_id && truthyStr e.title && truthyStr e.description &&
  (match e.choices with
   | some cs => !cs.isEmpty && cs.all choiceEnriched
   | none => false)

/-- A mock service that always fails with a connection error (the
"ServiceConnector mock that always fails with a connection error" of the
retry-bound scenario). -/
def alwaysConnFail : Nat → FetchOutcome :=
  fun _ => .fail ⟨some ("ECONNREFUSED"), "connect ECONNREFUSED"⟩

/-- A mock service whose every attempt succeeds with the end-to-end scenario
payload (prose around a JSON object). -/
def scenarioService : Nat → FetchOutcome :=
  fun _ => .respOk ("\x7b\"event_id\":\"e1\",\"title\":\"T\",\"description\":\"D\",\"choices\":[\x7b\"text\":\"go\",\"results\":[\x7b\"type\":\"next_event\",\"event_id\":\"e2\"\x7d]\x7d]\x7d")

/-- The event the host JSON parser produces from the scenario payload. -/
def scenarioEvent : RawEvent :=
  { event_id := some ("e1"), title := some ("T"), description := some ("D"),
    choices := some
      [{ text := some ("go"), conditions := none,
         results := some
           [{ type := some ("next_event"), event_id := some ("e2") }] }] }

/-- A mock of the host JSON parser for the scenario payload. -/
def scenarioParse : String → Except String RawEvent :=
  fun _ => .ok scenarioEvent

/-- The end-to-end scenario context:
`{type: "exploration", location: "森林", playerState: {attributes: {charisma: 20}}}`. -/
def scenarioContext : GenContext :=
  { type := some ("exploration"), location := some ("森林"),
    playerState := some { attributes := some [(("charisma" : String), JsVal.vNum 20)] } }

/-- A minimal template registry for orchestrator-level runs (the claims do
not depend on the default template texts, which the constructor merges the
same way). -/
def testTemplates : List (String × String) :=
  [(("default_template" : String),
    ("请为游戏生成一个{eventType}类型的事件，位于{location}。标记: {playerFlags}")),
   (("system_default" : String), ("你是文字冒险游戏的创意讲故事者。"))]

/-- A two-entry cache at capacity, used to witness the LRU claims
(keys are generateKey "a" = "97" and generateKey "b" = "98"). -/
def lruWitnessState : CacheState :=
  { cache := [(("97" : String), CacheItem.mk (CacheData.mk ("A") none) 0),
              (("98" : String), CacheItem.mk (CacheData.mk ("B") none) 0)],
    accessTimes := [(("97" : String), 1), (("98" : String), 2)],
    maxCacheSize := 2, expirationTime := 3600000 }

/- ==================================================================
THEOREMS
================================================================== -/

theorem resultEnriched_enrichTyped (x : RawResult) (ht : truthyStr x.type = true) :
    resultEnriched (enrichTypedResult x) = true := by
  obtain ⟨ty, eid, ak, v, iid, am, fl⟩ := x
  unfold enrichTypedResult
  dsimp only
  by_cases h1 : ty.getD "" = "next_event"
  · rw [if_pos h1]
    by_cases he : truthyStr eid = true
    · rw [if_pos he]
      simp [resultEnriched, ht, h1, he]
    · rw [if_neg he]
      simp [resultEnriched, ht, h1]
      decide
  · rw [if_neg h1]
    by_cases h2 : ty.getD "" = "attribute_change"
    · rw [if_pos h2]
      by_cases ha : truthyStr ak = true
      · rw [if_pos ha]
        by_cases hv : v = none
        · rw [if_pos hv]
          simp [resultEnriched, ht, h1, h2, ha]
        · rw [if_neg hv]
          simp [resultEnriched, ht, h1, h2, ha, Option.isSome_iff_ne_none, hv]
      · rw [if_neg ha]
        by_cases hv : v = none
        · rw [if_pos hv]
          simp [resultEnriched, ht, h1, h2]
          decide
        · rw [if_neg hv]
          simp [resultEnriched, ht, h1, h2, Option.isSome_iff_ne_none, hv]
          decide
    · rw [if_neg h2]
      by_cases h3 : ty.getD "" = "item_add" ∨ ty.getD "" = "item_remove"
      · rw [if_pos h3]
        by_cases hi : truthyStr iid = true
        · rw [if_pos hi]
          rcases am with _ | a
          · simp [resultEnriched, ht, h1, h2, h3, hi]
          · by_cases hle : a ≤ 0
            · simp [resultEnriched, ht, h1, h2, h3, hi, hle]
            · simp [resultEnriched, ht, h1, h2, h3, hi, hle]
              omega
        · rw [if_neg hi]
          rcases am with _ | a
          · simp [resultEnriched, ht, h1, h2, h3]
            decide
          · by_cases hle : a ≤ 0
            · simp [resultEnriched, ht, h1, h2, h3, hle]
              decide
            · simp [resultEnriched, ht, h1, h2, h3, hle]
              exact ⟨by decide, by omega⟩
      · rw [if_neg h3]
        by_cases h4 : ty.getD "" = "flag_set"
        · rw [if_pos h4]
          by_cases hf : truthyStr fl = true
          · rw [if_pos hf]
            by_cases hv : v = none
            · rw [if_pos hv]
              simp [resultEnriched, ht, h1, h2, h3, h4, hf]
            · rw [if_neg hv]
              simp [resultEnriched, ht, h1, h2, h3, h4, hf, Option.isSome_iff_ne_none, hv]
          · rw [if_neg hf]
            by_cases hv : v = none
            · rw [if_pos hv]
              simp [resultEnriched, ht, h1, h2, h3, h4]
              decide
            · rw [if_neg hv]
              simp [resultEnriched, ht, h1, h2, h3, h4, Option.isSome_iff_ne_none, hv]
              decide
        · rw [if_neg h4]
          simp [resultEnriched, ht, h1, h2, h3, h4]

theorem vER_of_enriched (r : RawResult) (h : resultEnriched r = true) :
    validateAndEnrichResult r = r := by
  obtain ⟨ty, eid, ak, v, iid, am, fl⟩ := r
  simp only [resultEnriched, Bool.and_eq_true] at h
  obtain ⟨ht, hrest⟩ := h
  unfold validateAndEnrichResult
  rw [if_pos ht]
  unfold enrichTypedResult
  dsimp only at hrest ⊢
  by_cases h1 : ty.getD "" = "next_event"
  · rw [if_pos h1] at hrest ⊢
    rw [if_pos hrest]
  · rw [if_neg h1] at hrest ⊢
    by_cases h2 : ty.getD "" = "attribute_change"
    · rw [if_pos h2] at hrest ⊢
      rw [Bool.and_eq_true] at hrest
      obtain ⟨ha, hv⟩ := hrest
      have hv2 : ¬ v = none := by
        simp only [← Option.ne_none_iff_isSome] at hv
        exact hv
      rw [if_pos ha, if_neg hv2]
    · rw [if_neg h2] at hrest ⊢
      by_cases h3 : ty.getD "" = "item_add" ∨ ty.getD "" = "item_remove"
      · rw [if_pos h3] at hrest ⊢
        rw [Bool.and_eq_true] at hrest
        obtain ⟨hi, hm⟩ := hrest
        rcases am with _ | a
        · simp at hm
        · rw [if_pos hi]
          have hgt : ¬ a ≤ 0 := by
            simp only [decide_eq_true_eq] at hm
            omega
          simp only [if_neg hgt]
      · rw [if_neg h3] at hrest ⊢
        by_cases h4 : ty.getD "" = "flag_set"
        · rw [if_pos h4] at hrest ⊢
          rw [Bool.and_eq_true] at hrest
          obtain ⟨hf, hv⟩ := hrest
          have hv2 : ¬ v = none := by
            simp only [← Option.ne_none_iff_isSome] at hv
            exact hv
          rw [if_pos hf, if_neg hv2]
        · rw [if_neg h4]

theorem resultEnriched_vER (r : RawResult) :
    resultEnriched (validateAndEnrichResult r) = true := by
  obtain ⟨ty, eid, ak, v, iid, am, fl⟩ := r
  unfold validateAndEnrichResult
  apply resultEnriched_enrichTyped
  by_cases ht : truthyStr ty
  · rw [if_pos ht]
    exact ht
  · rw [if_neg ht]
    rfl

theorem vER_idem (r : RawResult) :
    validateAndEnrichResult (validateAndEnrichResult r) = validateAndEnrichResult r :=
  vER_of_enriched (validateAndEnrichResult r) (resultEnriched_vER r)

theorem map_self_of_mem {α : Type} (l : List α) (f : α → α)
    (h : ∀ x ∈ l, f x = x) : l.map f = l := by
  induction l with
  | nil => rfl
  | cons a l ih =>
      simp only [List.map_cons, h a (by simp)]
      rw [ih (fun x hx => h x (by simp [hx]))]

theorem choiceEnriched_vChoice (c : RawChoice) :
    choiceEnriched (validateAndEnrichChoice c) = true := by
  obtain ⟨tx, cond, res⟩ := c
  unfold validateAndEnrichChoice
  dsimp only
  have hall : ∀ (rs : List RawResult),
      (rs.map validateAndEnrichResult).all resultEnriched = true := by
    intro rs
    simp only [List.all_eq_true, List.mem_map]
    rintro r ⟨r0, _, rfl⟩
    exact resultEnriched_vER r0
  by_cases htx : truthyStr tx
  · rw [if_pos htx]
    rcases cond with _ | cl
    all_goals rcases res with _ | ⟨_ | ⟨r, rs⟩⟩
    all_goals simp [choiceEnriched, htx, hall, resultEnriched_vER]
  · rw [if_neg htx]
    rcases cond with _ | cl
    all_goals rcases res with _ | ⟨_ | ⟨r, rs⟩⟩
    all_goals simp [choiceEnriched, hall, resultEnriched_vER]
    all_goals try decide

theorem vChoice_of_enriched (c : RawChoice) (h : choiceEnriched c = true) :
    validateAndEnrichChoice c = c := by
  obtain ⟨tx, cond, res⟩ := c
  simp only [choiceEnriched, Bool.and_eq_true] at h
  obtain ⟨⟨htx, hcond⟩, hres⟩ := h
  unfold validateAndEnrichChoice
  dsimp only
  rw [if_pos htx]
  rcases cond with _ | cl
  · simp at hcond
  · rcases res with _ | ⟨_ | ⟨r, rs⟩⟩
    · simp at hres
    · simp at hres
    · dsimp only
      simp only [Bool.and_eq_true, List.all_eq_true] at hres
      obtain ⟨-, hres2⟩ := hres
      have hmap := map_self_of_mem (r :: rs) validateAndEnrichResult
        (fun x hx => vER_of_enriched x (hres2 x hx))
      rw [Option.getD_some]
      rw [hmap]

theorem generateEventId_truthy (ctx : GenContext) (now : Nat) :
    truthyStr (some (generateEventId ctx now)) = true := by
  simp only [truthyStr, generateEventId, bne_iff_ne, ne_eq, String.length_append]
  have h1 : ("_" : String).length = 1 := rfl
  omega

theorem eventEnriched_vEE (e : RawEvent) (ctx : GenContext) (now : Nat) :
    eventEnriched (validateAndEnrichEvent e ctx now) = true := by
  obtain ⟨eid, ti, de, cs⟩ := e
  unfold validateAndEnrichEvent
  dsimp only
  have hallc : ∀ (l : List RawChoice),
      (l.map validateAndEnrichChoice).all choiceEnriched = true := by
    intro l
    simp only [List.all_eq_true, List.mem_map]
    rintro c ⟨c0, _, rfl⟩
    exact choiceEnriched_vChoice c0
  by_cases h1 : truthyStr eid
  · rw [if_pos h1]
    by_cases h2 : truthyStr ti
    · rw [if_pos h2]
      by_cases h3 : truthyStr de
      · rw [if_pos h3]
        rcases cs with _ | ⟨_ | ⟨c, cl⟩⟩
        all_goals simp [eventEnriched, h1, h2, h3, hallc, choiceEnriched_vChoice]
      · rw [if_neg h3]
        rcases cs with _ | ⟨_ | ⟨c, cl⟩⟩
        all_goals simp [eventEnriched, h1, h2, hallc, choiceEnriched_vChoice]
        all_goals try decide
    · rw [if_neg h2]
      by_cases h3 : truthyStr de
      · rw [if_pos h3]
        rcases cs with _ | ⟨_ | ⟨c, cl⟩⟩
        all_goals simp [eventEnriched, h1, h3, hallc, choiceEnriched_vChoice]
        all_goals try decide
      · rw [if_neg h3]
        rcases cs with _ | ⟨_ | ⟨c, cl⟩⟩
        all_goals simp [eventEnriched, h1, hallc, choiceEnriched_vChoice]
        all_goals try decide
  · rw [if_neg h1]
    by_cases h2 : truthyStr ti
    · rw [if_pos h2]
      by_cases h3 : truthyStr de
      · rw [if_pos h3]
        rcases cs with _ | ⟨_ | ⟨c, cl⟩⟩
        all_goals simp [eventEnriched, h2, h3, hallc, choiceEnriched_vChoice,
          generateEventId_truthy]
      · rw [if_neg h3]
        rcases cs with _ | ⟨_ | ⟨c, cl⟩⟩
        all_goals simp [eventEnriched, h2, hallc, choiceEnriched_vChoice,
          generateEventId_truthy]
        all_goals try decide
    · rw [if_neg h2]
      by_cases h3 : truthyStr de
      · rw [if_pos h3]
        rcases cs with _ | ⟨_ | ⟨c, cl⟩⟩
        all_goals simp [eventEnriched, h3, hallc, choiceEnriched_vChoice,
          generateEventId_truthy]
        all_goals try decide
      · rw [if_neg h3]
        rcases cs with _ | ⟨_ | ⟨c, cl⟩⟩
        all_goals simp [eventEnriched, hallc, choiceEnriched_vChoice,
          generateEventId_truthy]
        all_goals try decide

theorem vEE_of_enriched (e : RawEvent) (ctx : GenContext) (now : Nat)
    (h : eventEnriched e = true) : validateAndEnrichEvent e ctx now = e := by
  obtain ⟨eid, ti, de, cs⟩ := e
  simp only [eventEnriched, Bool.and_eq_true] at h
  obtain ⟨⟨⟨h1, h2⟩, h3⟩, hcs⟩ := h
  unfold validateAndEnrichEvent
  dsimp only
  rw [if_pos h1, if_pos h2, if_pos h3]
  rcases cs with _ | ⟨_ | ⟨c, cl⟩⟩
  · simp at hcs
  · simp at hcs
  · dsimp only
    simp only [Bool.and_eq_true, List.all_eq_true] at hcs
    obtain ⟨-, hcs2⟩ := hcs
    have hmap := map_self_of_mem (c :: cl) validateAndEnrichChoice
      (fun x hx => vChoice_of_enriched x (hcs2 x hx))
    rw [Option.getD_some]
    rw [hmap]

theorem choiceEnriched_results (c : RawChoice) (h : choiceEnriched c = true) :
    ∃ rs, c.results = some rs ∧ rs ≠ [] := by
  simp only [choiceEnriched, Bool.and_eq_true] at h
  obtain ⟨-, hres⟩ := h
  rcases hr : c.results with _ | rs
  · rw [hr] at hres
    simp at hres
  · rw [hr] at hres
    simp only [Bool.and_eq_true] at hres
    refine ⟨rs, rfl, ?_⟩
    intro hnil
    rw [hnil] at hres
    simp at hres

theorem vEE_choices (e : RawEvent) (ctx : GenContext) (now : Nat) :
    (validateAndEnrichEvent e ctx now).choices =
      some ((match e.choices with
             | some (c :: cl) => c :: cl
             | _ => [continueChoice]).map validateAndEnrichChoice) := by
  obtain ⟨eid, ti, de, cs⟩ := e
  unfold validateAndEnrichEvent
  dsimp only
  rcases cs with _ | ⟨_ | ⟨c, cl⟩⟩ <;>
    by_cases h1 : truthyStr eid <;> by_cases h2 : truthyStr ti <;>
    by_cases h3 : truthyStr de <;>
    simp [h1, h2, h3]

/-- C8: normalization is idempotent — re-normalizing an event already
produced by `_validateAndEnrichEvent` returns it unchanged (for any context
and timestamp supplied to the second application). -/
theorem c8_normalization_idempotent (e : RawEvent) (ctx ctx2 : GenContext)
    (now now2 : Nat) :
    validateAndEnrichEvent (validateAndEnrichEvent e ctx now) ctx2 now2 =
      validateAndEnrichEvent e ctx now :=
  vEE_of_enriched (validateAndEnrichEvent e ctx now) ctx2 now2
    (eventEnriched_vEE e ctx now)

/-- C4: after normalization every event has at least one choice and every
choice a non-empty results array; an input whose choices array is missing or
empty gets exactly the one synthesized continue-choice whose single result
is `next_event → default_next`. -/
theorem c4_normalization_defaults (e : RawEvent) (ctx : GenContext) (now : Nat) :
    (∃ cs, (validateAndEnrichEvent e ctx now).choices = some cs ∧ cs ≠ [] ∧
      ∀ c ∈ cs, ∃ rs, c.results = some rs ∧ rs ≠ []) ∧
    ((e.choices = none ∨ e.choices = some []) →
      (validateAndEnrichEvent e ctx now).choices = some [continueChoice]) := by
  constructor
  · have h := eventEnriched_vEE e ctx now
    simp only [eventEnriched, Bool.and_eq_true] at h
    obtain ⟨-, hcs⟩ := h
    rcases hch : (validateAndEnrichEvent e ctx now).choices with _ | cs
    · rw [hch] at hcs
      simp at hcs
    · rw [hch] at hcs
      rcases cs with _ | ⟨c, cl⟩
      · simp at hcs
      · simp only [Bool.and_eq_true, List.all_eq_true] at hcs
        obtain ⟨-, hall⟩ := hcs
        exact ⟨c :: cl, rfl, by simp,
          fun x hx => choiceEnriched_results x (hall x hx)⟩
  · intro hch
    have hcc : validateAndEnrichChoice continueChoice = continueChoice := by decide
    rcases hch with hn | hn <;>
      rw [vEE_choices, hn] <;> simp [hcc]

/-- Witness for C4 at `choices: []`. -/
theorem c4_normalization_defaults_witness :
    (validateAndEnrichEvent
        { event_id := some ("e1"), title := some ("t"),
          description := some ("d"), choices := some [] }
        {} 0).choices = some [continueChoice] :=
  (c4_normalization_defaults
      { event_id := some ("e1"), title := some ("t"),
        description := some ("d"), choices := some [] } {} 0).2 (Or.inr rfl)

/-- C6: extraction takes the substring from the first `{` to the last `}`;
when a delimiter is missing (or the slice fails to parse) the buffered
`adaptToGameEvent` raises an error that classifies as parsing, while the
streaming `adaptPartialContent` returns the `{partial: true, text}` marker
instead of raising. -/
theorem c6_json_extraction :
    (∀ content i j,
        firstIdxOf content (Char.ofNat 123) = some i →
        lastIdxOf content (Char.ofNat 125) = some j → i < j →
        extractJsonFromContent content = .ok (strSlice content i (j + 1))) ∧
    (∀ (parse : String → Except String RawEvent) ctx now content m,
        extractJsonFromContent content = .error m →
        m = jsonNotFoundMsg ∧
        adaptToGameEvent parse content ctx now =
          .error ("适配事件失败: " ++ jsonNotFoundMsg)) ∧
    (getErrorType (some ⟨none, "适配事件失败: " ++ jsonNotFoundMsg⟩) =
      "content_parsing_error") ∧
    (∀ (parse : String → Except String RawEvent) ctx now content j pm,
        extractJsonFromContent content = .ok j → parse j = .error pm →
        adaptToGameEvent parse content ctx now = .error ("适配事件失败: " ++ pm) ∧
        (strContains ("适配事件失败: " ++ pm) ("连接") = false →
         strContains ("适配事件失败: " ++ pm) ("timeout") = false →
         strContains ("适配事件失败: " ++ pm) ("超时") = false →
         strContains ("适配事件失败: " ++ pm) ("JSON") = true →
         getErrorType (some ⟨none, "适配事件失败: " ++ pm⟩) =
           "content_parsing_error")) ∧
    (∀ (parse : String → Except String RawEvent) st chunk,
        ((extractJsonFromContent (st ++ chunk)).isOk = false ∨
         (∃ j pm, extractJsonFromContent (st ++ chunk) = .ok j ∧
            parse j = .error pm)) →
        adaptPartialContent parse st chunk =
          (.partialText (st ++ chunk), st ++ chunk)) := by
  refine ⟨?_, ?_, ?_, ?_, ?_⟩
  · intro content i j h1 h2 hij
    unfold extractJsonFromContent
    simp only [h1, h2]
    rw [if_neg (by omega)]
  · intro parse ctx now content m h
    have hm : m = jsonNotFoundMsg := by
      unfold extractJsonFromContent at h
      dsimp only at h
      split at h
      · split at h <;> simp_all
      · simp_all
      · simp_all
    subst hm
    refine ⟨rfl, ?_⟩
    unfold adaptToGameEvent
    rw [h]
  · decide
  · intro parse ctx now content j pm h1 h2
    constructor
    · unfold adaptToGameEvent
      rw [h1]
      simp [h2]
    · intro hc1 hc2 hc3 hc4
      unfold getErrorType
      simp [hc1, hc2, hc3, hc4]
  · intro parse st chunk h
    unfold adaptPartialContent
    dsimp only
    rcases hext : extractJsonFromContent (st ++ chunk) with m | j
    · rfl
    · rcases h with h | ⟨j2, pm, hj2, hp⟩
      · rw [hext] at h
        simp [Except.isOk, Except.toBool] at h
      · rw [hext] at hj2
        injection hj2 with hj2
        subst hj2
        simp [hp]

/-- Witness for C6 on concrete inputs without braces. -/
theorem c6_json_extraction_witness :
    extractJsonFromContent ("abc") = Except.error jsonNotFoundMsg ∧
    adaptToGameEvent (fun _ => Except.ok {}) ("abc") {} 0 =
      Except.error ("适配事件失败: " ++ jsonNotFoundMsg) ∧
    adaptPartialContent (fun _ => Except.ok {}) ("ab") ("c") =
      (.partialText ("abc"), "abc") :=
  ⟨by rfl,
   (c6_json_extraction.2.1 (fun _ => Except.ok {}) {} 0 ("abc")
      jsonNotFoundMsg (by rfl)).2,
   c6_json_extraction.2.2.2.2 (fun _ => Except.ok {}) ("ab") ("c")
     (Or.inl (by decide))⟩

/-- C9 counterexample: a non-empty flags map whose every value is `false`
formats to the empty string, not the `无标记` sentinel, and the
`{playerFlags}` placeholder is accordingly replaced by the empty string. -/
theorem c9_all_false_flags_counterexample :
    formatFlags (some [("旅程开始", JsVal.vBool false)]) = "" ∧
    formatFlags (some [("旅程开始", JsVal.vBool false)]) ≠ "无标记" ∧
    fillTemplate ("标记: {playerFlags}")
      { playerState := some { flags := some [("旅程开始", JsVal.vBool false)] } } =
      "标记: " := by
  refine ⟨by decide, by decide, by decide⟩

/-- C9 (amended): `{playerFlags}` is formatted as the comma-joined names of
exactly the flags strictly equal to `true`; the `无标记` sentinel is used
only when the flags map is missing or has no keys — a non-empty all-false
map therefore yields the empty string, not the sentinel. -/
theorem c9_flags_formatting (flags : List (String × JsVal)) (h : flags ≠ []) :
    formatFlags (some flags) =
      String.intercalate (", ")
        ((flags.filter (fun kv => kv.2 == JsVal.vBool true)).map (fun kv => kv.1)) ∧
    formatFlags none = "无标记" ∧ formatFlags (some []) = "无标记" := by
  refine ⟨?_, rfl, rfl⟩
  match flags, h with
  | (k, v) :: rest, _ => rfl

/-- Witness for C9 (amended) at a one-flag map. -/
theorem c9_flags_formatting_witness :
    ([(("f" : String), JsVal.vBool false)] ≠ []) ∧
    formatFlags (some [(("f" : String), JsVal.vBool false)]) =
      String.intercalate (", ")
        (([(("f" : String), JsVal.vBool false)].filter
            (fun kv => kv.2 == JsVal.vBool true)).map (fun kv => kv.1)) :=
  ⟨by decide,
   (c9_flags_formatting [(("f" : String), JsVal.vBool false)] (by decide)).1⟩

/-- C5 counterexample: the streaming call issues its request through a plain
`fetch` with no AbortController and no timer — it carries no hard timeout,
contradicting "every service call carries a hard timeout". -/
theorem c5_stream_no_timeout_counterexample :
    (streamContentRequest {}).timeoutMs = none ∧
    (streamContentRequest {}).streamFlag = true := by
  refine ⟨rfl, rfl⟩

/-- C5 (amended): only the buffered generateContent call carries a hard
timeout — it is issued through `_fetchWithTimeout` with the configured
timeout, and when the timeout elapses the request is aborted and the
resulting `请求超时` error classifies as a timeout; the streaming
streamContent call is issued with no timeout at all. -/
theorem c5_buffered_timeout (cfg : ConnectorConfig) (d : Nat) (o : FetchOutcome)
    (h : cfg.timeout ≤ d) :
    (generateContentRequest cfg).timeoutMs = some cfg.timeout ∧
    fetchWithTimeout d o cfg.timeout = .error ⟨none, "请求超时"⟩ ∧
    getErrorType (some ⟨none, "请求超时"⟩) = "timeout_error" ∧
    (streamContentRequest cfg).timeoutMs = none := by
  refine ⟨rfl, ?_, by decide, rfl⟩
  unfold fetchWithTimeout
  rw [if_pos h]

/-- Witness for C5 (amended) at the default configuration. -/
theorem c5_buffered_timeout_witness :
    (({} : ConnectorConfig).timeout ≤ 30000) ∧
    fetchWithTimeout 30000 (FetchOutcome.respOk ("x"))
      ({} : ConnectorConfig).timeout = Except.error ⟨none, "请求超时"⟩ :=
  ⟨by decide,
   (c5_buffered_timeout {} 30000 (FetchOutcome.respOk ("x")) (by decide)).2.1⟩

theorem buildPrompt_ok (tset : List (String × String)) (ctx : GenContext)
    (dt : String) (hd : mapGet tset ("default_template") = some dt) :
    ∃ p, buildPrompt tset ctx = Except.ok p := by
  unfold buildPrompt
  dsimp only
  by_cases hq : truthyStr (mapGet tset
      ((if truthyStr ctx.type then ctx.type.getD "" else "exploration") ++ "_template"))
  · rw [if_pos hq]
    rcases h1 : mapGet tset
        ((if truthyStr ctx.type then ctx.type.getD "" else "exploration") ++ "_template")
      with _ | t1
    · rw [h1] at hq
      simp [truthyStr] at hq
    · exact ⟨_, rfl⟩
  · rw [if_neg hq, hd]
    exact ⟨_, rfl⟩

theorem connFail_generateContentFrom (maxR : Nat) :
    ∀ n r, r ≤ maxR → maxR - r = n →
      generateContentFrom alwaysConnFail maxR r =
        { result := Except.error
            ⟨none, "AI请求失败，已达到最大重试次数: connect ECONNREFUSED"⟩,
          requests := maxR - r + 1,
          delays := (List.range' r (maxR - r)).map (fun i => 2 ^ i * 1000) } := by
  intro n
  induction n with
  | zero =>
      intro r hr h0
      unfold generateContentFrom
      have hnot : ¬ r < maxR := by omega
      simp only [alwaysConnFail, processResponse, dif_neg hnot, h0]
      rfl
  | succ n ih =>
      intro r hr h0
      unfold generateContentFrom
      have hlt : r < maxR := by omega
      simp only [alwaysConnFail, processResponse, dif_pos hlt]
      rw [ih (r + 1) (by omega) (by omega)]
      dsimp only
      have h1 : maxR - r = (maxR - (r + 1)) + 1 := by omega
      rw [h1, List.range'_succ, List.map_cons]

/-- C3: with a service that always fails with a connection error, a buffered
generateContent call issues exactly `maxRetries + 1` requests (the initial
attempt plus `maxRetries` independent retries), sleeping
`1000 * 2^attempt` ms before each retry, and the orchestrator
(GameAIIntegrator.generateEvent) then returns the fallback event instead of
the error. -/
theorem c3_retry_bound_and_fallback (maxRetries : Nat) (game : GameSnapshot)
    (options : GenOptions) (parse : String → Except String RawEvent)
    (now : Nat) :
    (generateContent alwaysConnFail maxRetries).requests = maxRetries + 1 ∧
    (generateContent alwaysConnFail maxRetries).delays =
      (List.range maxRetries).map (fun i => 2 ^ i * 1000) ∧
    (generateContent alwaysConnFail maxRetries).result = Except.error
      ⟨none, "AI请求失败，已达到最大重试次数: connect ECONNREFUSED"⟩ ∧
    integratorGenerateEvent game testTemplates alwaysConnFail maxRetries
      parse options now =
      (createFallbackEvent options game now, maxRetries + 1) := by
  have hconn := connFail_generateContentFrom maxRetries (maxRetries - 0) 0
    (by omega) rfl
  have hreq : (generateContent alwaysConnFail maxRetries).requests
      = maxRetries + 1 := by
    unfold generateContent
    rw [hconn]
    simp
  have hdel : (generateContent alwaysConnFail maxRetries).delays =
      (List.range maxRetries).map (fun i => 2 ^ i * 1000) := by
    unfold generateContent
    rw [hconn, List.range_eq_range']
    simp
  have hres : (generateContent alwaysConnFail maxRetries).result = Except.error
      ⟨none, "AI请求失败，已达到最大重试次数: connect ECONNREFUSED"⟩ := by
    unfold generateContent
    rw [hconn]
  refine ⟨hreq, hdel, hres, ?_⟩
  obtain ⟨p, hp⟩ := buildPrompt_ok testTemplates
    (engineContext (integratorContext options game)) _ rfl
  unfold integratorGenerateEvent engineGenerateEvent
  rw [hp]
  dsimp only
  rw [hres]
  dsimp only
  rw [hreq]

set_option maxRecDepth 8192 in
/-- C1 (code evaluation at the failing input): on the end-to-end scenario —
two calls with byte-identical contexts and a service that succeeds — each
`AIStoryEngine.generateEvent` call issues exactly one network request; in
particular the second identical call issues a request instead of returning
a cached value with zero network calls. The pipeline performs no cache
lookup anywhere (CacheManager is imported by AIStoryEngine.js but never
used). -/
theorem c1_second_identical_call_hits_network :
    (engineGenerateEvent testTemplates scenarioService 3 scenarioParse
        scenarioContext 0).1 =
      Except.ok (validateAndEnrichEvent scenarioEvent scenarioContext 0) ∧
    (validateAndEnrichEvent scenarioEvent scenarioContext 0).event_id =
      some ("e1") ∧
    (engineGenerateEvent testTemplates scenarioService 3 scenarioParse
        scenarioContext 0).2 = 1 ∧
    (engineGenerateEvent testTemplates scenarioService 3 scenarioParse
        scenarioContext 0).2 +
      (engineGenerateEvent testTemplates scenarioService 3 scenarioParse
        scenarioContext 0).2 = 2 := by
  obtain ⟨p, hp⟩ := buildPrompt_ok testTemplates
    (engineContext scenarioContext) _ rfl
  have hconn : generateContent scenarioService 3 =
      { result := Except.ok (jsTrim ("\x7b\"event_id\":\"e1\",\"title\":\"T\",\"description\":\"D\",\"choices\":[\x7b\"text\":\"go\",\"results\":[\x7b\"type\":\"next_event\",\"event_id\":\"e2\"\x7d]\x7d]\x7d")),
        requests := 1, delays := [] } := by
    unfold generateContent generateContentFrom
    rfl
  have hev : engineGenerateEvent testTemplates scenarioService 3 scenarioParse
      scenarioContext 0 =
      (Except.ok (validateAndEnrichEvent scenarioEvent scenarioContext 0), 1) := by
    unfold engineGenerateEvent
    rw [hp]
    dsimp only
    rw [hconn]
    dsimp only
    rfl
  rw [hev]
  exact ⟨rfl, rfl, rfl, rfl⟩

theorem truthyStr_of_len (s : String) (h : s.length ≠ 0) :
    truthyStr (some s) = true := by
  simp [truthyStr, h]

theorem validateEvent_fallback_aux (mid ts rid : String) :
    validateEvent
      { event_id := some ((("fallback_" ++ mid) ++ "_") ++ ts),
        title := some ("意外的发现"),
        description := some ("在前行的过程中，你遇到了一些意想不到的情况。可能是由于环境变化或是你的感知出现了偏差，周围的景象变得有些模糊不清。你需要决定如何应对这个情况。"),
        choices := some
          [{ text := some ("环顾四周"), conditions := some [],
             results := some
               [{ type := some ("next_event"), event_id := some rid }] },
           { text := some ("继续前进"), conditions := some [],
             results := some
               [{ type := some ("next_event"),
                  event_id := some ("exploration_continue") }] }] } =
      Except.ok () := by
  have h9 : ("fallback_" : String).length = 9 := rfl
  have hu : ("_" : String).length = 1 := rfl
  have h1 : truthyStr (some ((("fallback_" ++ mid) ++ "_") ++ ts)) = true := by
    apply truthyStr_of_len
    simp only [String.length_append, h9, hu]
    omega
  unfold validateEvent
  dsimp only
  rw [if_neg (by simp [h1])]
  rfl

/-- GameAIIntegrator._createFallbackEvent always passes
AIStoryEngine._validateEvent. -/
theorem validateEvent_fallback (options : GenOptions) (game : GameSnapshot)
    (now : Nat) :
    validateEvent (createFallbackEvent options game now) = Except.ok () := by
  unfold createFallbackEvent
  exact validateEvent_fallback_aux _ _ _

/-- A successful engine generateEvent result has passed _validateEvent. -/
theorem engineGenerateEvent_ok_validates (templates : List (String × String))
    (attempt : Nat → FetchOutcome) (maxRetries : Nat)
    (parse : String → Except String RawEvent) (context : GenContext)
    (now : Nat) (ev : RawEvent) (n : Nat)
    (h : engineGenerateEvent templates attempt maxRetries parse context now =
      (Except.ok ev, n)) :
    validateEvent ev = Except.ok () := by
  unfold engineGenerateEvent at h
  dsimp only at h
  split at h
  · simp at h
  · split at h
    · simp at h
    · split at h
      · simp at h
      · split at h
        · simp at h
        · simp_all

/-- C2 counterexample: when the stream fails, the caller's callback receives
the bare error object `{error: message}` (CbVal.errObj) — a non-event value —
as its final delivery, because AIStoryEngine.streamEvent's catch block calls
`callback({error: error.message}, true)` instead of delivering a fallback
event. -/
theorem c2_stream_error_object_counterexample :
    integratorStreamEvent { playerState := {} } testTemplates
        { chunks := [], failure := some ⟨none, "network down"⟩ }
        (fun _ => Except.error ("no parse")) {} 0 =
      [(CbVal.errObj ("network down"), true)] := by
  rfl

/-- C2 (amended): generateEvent always hands the caller a structurally valid
GeneratedEvent — the engine's validated event or the integrator's fallback —
and never propagates an exception; streamEvent also never propagates an
exception, but on failure its final callback delivery is the bare error
object `{error: message}` rather than an event. -/
theorem c2_no_exception_delivery :
    (∀ (game : GameSnapshot) (templates : List (String × String))
        (attempt : Nat → FetchOutcome) (maxRetries : Nat)
        (parse : String → Except String RawEvent) (options : GenOptions)
        (now : Nat),
      validateEvent (integratorGenerateEvent game templates attempt maxRetries
        parse options now).1 = Except.ok ()) ∧
    (∀ (game : GameSnapshot) (templates : List (String × String))
        (stream : StreamInput) (parse : String → Except String RawEvent)
        (options : GenOptions) (now : Nat),
      ∃ v, (integratorStreamEvent game templates stream parse options
          now).getLast? = some (v, true) ∧
        ((∃ e, v = CbVal.ev e ∧ validateEvent e = Except.ok ()) ∨
         (∃ m, v = CbVal.errObj m))) := by
  constructor
  · intro game templates attempt maxRetries parse options now
    unfold integratorGenerateEvent
    rcases heng : engineGenerateEvent templates attempt maxRetries parse
        (integratorContext options game) now with ⟨res, n⟩
    rcases res with e | ev
    · dsimp only
      exact validateEvent_fallback options game now
    · dsimp only
      exact engineGenerateEvent_ok_validates templates attempt maxRetries
        parse (integratorContext options game) now ev n heng
  · intro game templates stream parse options now
    unfold integratorStreamEvent engineStreamEvent
    dsimp only
    split
    · rename_i m hm
      exact ⟨CbVal.errObj m, rfl, Or.inr ⟨m, rfl⟩⟩
    · rename_i p hp
      rcases hrp : runPartials parse stream.chunks "" with ⟨partials, acc⟩
      dsimp only
      split
      · rename_i e hf
        exact ⟨CbVal.errObj e.message, by rw [List.getLast?_concat],
          Or.inr ⟨e.message, rfl⟩⟩
      · split
        · rename_i m hm
          exact ⟨CbVal.errObj m, by rw [List.getLast?_concat],
            Or.inr ⟨m, rfl⟩⟩
        · rename_i gameEvent hadapt
          split
          · rename_i m hm
            exact ⟨CbVal.errObj m, by rw [List.getLast?_concat],
              Or.inr ⟨m, rfl⟩⟩
          · rename_i u hval
            exact ⟨CbVal.ev gameEvent, by rw [List.getLast?_concat],
              Or.inl ⟨gameEvent, rfl, by
                rcases u
                exact hval⟩⟩

theorem mapGet_mapSet {β : Type} (m : List (String × β)) (k j : String) (v : β) :
    mapGet (mapSet m k v) j = if j = k then some v else mapGet m j := by
  induction m with
  | nil =>
      by_cases h : j = k
      · simp [mapSet, mapGet, h]
      · simp [mapSet, mapGet, h, Ne.symm h]
  | cons hd tl ih =>
      obtain ⟨k2, v2⟩ := hd
      by_cases h : k2 = k
      · subst h
        by_cases h2 : j = k2
        · subst h2
          simp [mapSet, mapGet]
        · simp [mapSet, mapGet, h2, Ne.symm h2]
      · by_cases h2 : j = k2
        · subst h2
          simp [mapSet, mapGet, h, Ne.symm h]
        · simp [mapSet, mapGet, h, h2, Ne.symm h2, ih]

theorem mapHas_mapSet {β : Type} (m : List (String × β)) (k j : String) (v : β) :
    mapHas (mapSet m k v) j = (j == k || mapHas m j) := by
  by_cases h : j = k <;> simp [mapHas, mapGet_mapSet, h]

theorem mapGet_mapDelete {β : Type} (m : List (String × β)) (k j : String) :
    mapGet (mapDelete m k) j = if j = k then none else mapGet m j := by
  induction m with
  | nil => simp [mapDelete, mapGet]
  | cons hd tl ih =>
      obtain ⟨k2, v2⟩ := hd
      by_cases h : k2 = k
      · by_cases h2 : j = k2
        · subst h2
          subst h
          simp [mapDelete, ih]
        · subst h
          simp [mapDelete, ih, mapGet, h2, Ne.symm h2]
      · by_cases h2 : j = k2
        · subst h2
          simp [mapDelete, mapGet, h, Ne.symm h, Ne.symm (h ∘ Eq.symm)]
        · simp [mapDelete, mapGet, h, Ne.symm h2, ih]

theorem mapHas_mapDelete {β : Type} (m : List (String × β)) (k j : String) :
    mapHas (mapDelete m k) j = (j != k && mapHas m j) := by
  by_cases h : j = k <;> simp [mapHas, mapGet_mapDelete, h]

theorem mapHas_iff_mem_keys {β : Type} (m : List (String × β)) (k : String) :
    mapHas m k = true ↔ k ∈ m.map Prod.fst := by
  induction m with
  | nil => simp [mapHas, mapGet]
  | cons hd tl ih =>
      obtain ⟨k2, v2⟩ := hd
      by_cases h : k2 = k
      · subst h
        simp [mapHas, mapGet]
      · simp [mapHas, mapGet, h, Ne.symm h] at ih ⊢
        exact ih

theorem mapSet_keys_of_has {β : Type} (m : List (String × β)) (k : String)
    (v : β) (h : mapHas m k = true) :
    (mapSet m k v).map Prod.fst = m.map Prod.fst := by
  induction m with
  | nil => simp [mapHas, mapGet] at h
  | cons hd tl ih =>
      obtain ⟨k2, v2⟩ := hd
      by_cases h2 : k2 = k
      · subst h2
        simp [mapSet]
      · simp [mapHas, mapGet, h2, Ne.symm h2] at h
        simp [mapSet, h2, ih h]

theorem mapSet_keys_of_not_has {β : Type} (m : List (String × β)) (k : String)
    (v : β) (h : mapHas m k = false) :
    (mapSet m k v).map Prod.fst = m.map Prod.fst ++ [k] := by
  induction m with
  | nil => simp [mapSet]
  | cons hd tl ih =>
      obtain ⟨k2, v2⟩ := hd
      by_cases h2 : k2 = k
      · subst h2
        simp [mapHas, mapGet] at h
      · have h3 : mapHas tl k = false := by
          simp [mapHas, mapGet, h2, Ne.symm h2] at h
          simp [mapHas, h]
        simp [mapSet, h2, ih h3]

theorem mapDelete_keys_sublist {β : Type} (m : List (String × β)) (k : String) :
    ((mapDelete m k).map Prod.fst).Sublist (m.map Prod.fst) := by
  induction m with
  | nil => simp [mapDelete]
  | cons hd tl ih =>
      obtain ⟨k2, v2⟩ := hd
      by_cases h : k2 = k
      · subst h
        simp only [mapDelete, if_pos rfl, List.map_cons]
        exact ih.cons _
      · simp only [mapDelete, if_neg h, List.map_cons]
        exact ih.cons₂ _

theorem mapSet_keys_pair {β γ : Type} (m1 : List (String × β))
    (m2 : List (String × γ)) (k : String) (v : β) (w : γ)
    (h : m1.map Prod.fst = m2.map Prod.fst) :
    (mapSet m1 k v).map Prod.fst = (mapSet m2 k w).map Prod.fst := by
  induction m1 generalizing m2 with
  | nil =>
      cases m2 with
      | nil => simp [mapSet]
      | cons hd2 tl2 => simp at h
  | cons hd tl ih =>
      cases m2 with
      | nil => simp at h
      | cons hd2 tl2 =>
          obtain ⟨k1, v1⟩ := hd
          obtain ⟨k2, v2⟩ := hd2
          simp only [List.map_cons, List.cons.injEq] at h
          obtain ⟨hk, htl⟩ := h
          subst hk
          by_cases h2 : k1 = k
          · simp [mapSet, h2, htl]
          · simp [mapSet, h2, ih tl2 htl]

theorem mapDelete_keys_pair {β γ : Type} (m1 : List (String × β))
    (m2 : List (String × γ)) (k : String)
    (h : m1.map Prod.fst = m2.map Prod.fst) :
    (mapDelete m1 k).map Prod.fst = (mapDelete m2 k).map Prod.fst := by
  induction m1 generalizing m2 with
  | nil =>
      cases m2 with
      | nil => simp [mapDelete]
      | cons hd2 tl2 => simp at h
  | cons hd tl ih =>
      cases m2 with
      | nil => simp at h
      | cons hd2 tl2 =>
          obtain ⟨k1, v1⟩ := hd
          obtain ⟨k2, v2⟩ := hd2
          simp only [List.map_cons, List.cons.injEq] at h
          obtain ⟨hk, htl⟩ := h
          subst hk
          by_cases h2 : k1 = k
          · simp [mapDelete, h2, ih tl2 htl]
          · simp [mapDelete, h2, ih tl2 htl]

theorem mapGet_of_mem_nodup {β : Type} (m : List (String × β))
    (hnd : (m.map Prod.fst).Nodup) (kv : String × β) (hm : kv ∈ m) :
    mapGet m kv.1 = some kv.2 := by
  induction m with
  | nil => cases hm
  | cons hd tl ih =>
      obtain ⟨k2, v2⟩ := hd
      simp only [List.map_cons, List.nodup_cons] at hnd
      rcases List.mem_cons.mp hm with hm2 | hm2
      · subst hm2
        simp [mapGet]
      · have hne : kv.1 ≠ k2 := by
          intro hk
          exact hnd.1 (hk ▸ (List.mem_map.mpr ⟨kv, hm2, rfl⟩))
        simp [mapGet, Ne.symm hne, hne, ih hnd.2 hm2]

theorem evictScan_go (ats : List (String × Nat)) (init : String × Nat) :
    ∃ kv, List.foldl
        (fun acc kv =>
          match acc with
          | none => some kv
          | some best => if kv.2 < best.2 then some kv else acc)
        (some init) ats = some kv ∧ (kv = init ∨ kv ∈ ats) ∧
      kv.2 ≤ init.2 ∧ ∀ kv2 ∈ ats, kv.2 ≤ kv2.2 := by
  induction ats generalizing init with
  | nil => exact ⟨init, rfl, Or.inl rfl, le_refl _, by simp⟩
  | cons hd tl ih =>
      by_cases h : hd.2 < init.2
      · obtain ⟨kv, h1, h2, h3, h4⟩ := ih hd
        refine ⟨kv, ?_, ?_, ?_, ?_⟩
        · simpa [h] using h1
        · rcases h2 with h2 | h2
          · exact Or.inr (by simp [h2])
          · exact Or.inr (by simp [h2])
        · omega
        · intro kv2 hkv2
          rcases List.mem_cons.mp hkv2 with h5 | h5
          · subst h5
            exact h3
          · exact h4 kv2 h5
      · obtain ⟨kv, h1, h2, h3, h4⟩ := ih init
        refine ⟨kv, ?_, ?_, ?_, ?_⟩
        · simpa [h] using h1
        · rcases h2 with h2 | h2
          · exact Or.inl h2
          · exact Or.inr (by simp [h2])
        · exact h3
        · intro kv2 hkv2
          rcases List.mem_cons.mp hkv2 with h5 | h5
          · subst h5
            omega
          · exact h4 kv2 h5

theorem evictScan_spec (ats : List (String × Nat)) (hne : ats ≠ []) :
    ∃ kv, evictScan ats = some kv ∧ kv ∈ ats ∧ ∀ kv2 ∈ ats, kv.2 ≤ kv2.2 := by
  rcases ats with _ | ⟨hd, tl⟩
  · exact absurd rfl hne
  · unfold evictScan
    simp only [List.foldl_cons]
    obtain ⟨kv, h1, h2, h3, h4⟩ := evictScan_go tl hd
    refine ⟨kv, h1, ?_, ?_⟩
    · rcases h2 with h2 | h2
      · exact h2 ▸ List.mem_cons_self hd tl
      · exact List.mem_cons_of_mem hd h2
    · intro kv2 hkv2
      rcases List.mem_cons.mp hkv2 with h5 | h5
      · subst h5
        exact h3
      · exact h4 kv2 h5

theorem mem_mapSet_of_ne {β : Type} (m : List (String × β)) (kv : String × β)
    (k2 : String) (w : β) (hm : kv ∈ m) (hne : kv.1 ≠ k2) :
    kv ∈ mapSet m k2 w := by
  induction m with
  | nil => cases hm
  | cons hd tl ih =>
      obtain ⟨ka, va⟩ := hd
      rcases List.mem_cons.mp hm with h | h
      · subst h
        by_cases hk : ka = k2
        · exact absurd hk hne
        · simp [mapSet, hk]
      · by_cases hk : ka = k2
        · simp [mapSet, hk]
          exact Or.inr h
        · simp [mapSet, hk]
          exact Or.inr (ih h)

theorem mapSet_same_key_val {β : Type} (m : List (String × β))
    (hnd : (m.map Prod.fst).Nodup) (k : String) (v : β) (t : β)
    (hm : (k, t) ∈ mapSet m k v) : t = v := by
  induction m with
  | nil =>
      simp [mapSet] at hm
      exact hm
  | cons hd tl ih =>
      obtain ⟨ka, va⟩ := hd
      simp only [List.map_cons, List.nodup_cons] at hnd
      by_cases hk : ka = k
      · subst hk
        simp only [mapSet, if_pos rfl] at hm
        rcases List.mem_cons.mp hm with h | h
        · exact (Prod.mk.injEq _ _ _ _).mp h |>.2
        · exact absurd (List.mem_map.mpr ⟨(ka, t), h, rfl⟩) hnd.1
      · simp only [mapSet, if_neg hk] at hm
        rcases List.mem_cons.mp hm with h | h
        · exact absurd ((Prod.mk.injEq _ _ _ _).mp h).1.symm hk
        · exact ih hnd.2 h

theorem filter_keys_eq {β : Type} (ca : List (String × CacheItem))
    (ats : List (String × β)) (lookup : String → Option CacheItem)
    (p : CacheItem → Bool)
    (hk : ca.map Prod.fst = ats.map Prod.fst)
    (hl : ∀ kv ∈ ca, lookup kv.1 = some kv.2) :
    (ca.filter (fun kv => p kv.2)).map Prod.fst =
      (ats.filter (fun kv =>
        match lookup kv.1 with
        | some item => p item
        | none => true)).map Prod.fst := by
  induction ca generalizing ats with
  | nil =>
      cases ats with
      | nil => simp
      | cons hd2 tl2 => simp at hk
  | cons hd tl ih =>
      cases ats with
      | nil => simp at hk
      | cons hd2 tl2 =>
          obtain ⟨k1, item1⟩ := hd
          obtain ⟨k2, b2⟩ := hd2
          simp only [List.map_cons, List.cons.injEq] at hk
          obtain ⟨hkk, htl⟩ := hk
          subst hkk
          have hl1 : lookup k1 = some item1 := hl (k1, item1) (by simp)
          have hltl : ∀ kv ∈ tl, lookup kv.1 = some kv.2 :=
            fun kv hkv => hl kv (List.mem_cons_of_mem _ hkv)
          by_cases hp : p item1
          · rw [List.filter_cons_of_pos (by simpa using hp),
              List.filter_cons_of_pos (by simp [hl1, hp])]
            simp only [List.map_cons]
            rw [ih tl2 htl hltl]
          · rw [List.filter_cons_of_neg (by simpa using hp),
              List.filter_cons_of_neg (by simp [hl1, hp])]
            exact ih tl2 htl hltl

/-- The invariant of C10: the two maps carry the same key sequence, without
duplicates. -/
def cacheInv (st : CacheState) : Prop :=
  st.cache.map Prod.fst = st.accessTimes.map Prod.fst ∧
    (st.cache.map Prod.fst).Nodup

theorem cacheInv_fresh (m t : Nat) : cacheInv (freshCache m t) :=
  ⟨rfl, List.nodup_nil⟩

theorem mapSet_keys_nodup {β : Type} (m : List (String × β)) (k : String)
    (v : β) (hnd : (m.map Prod.fst).Nodup) :
    ((mapSet m k v).map Prod.fst).Nodup := by
  by_cases h : mapHas m k
  · rw [mapSet_keys_of_has m k v h]
    exact hnd
  · have hfalse : mapHas m k = false := by simpa using h
    rw [mapSet_keys_of_not_has m k v hfalse]
    refine List.Nodup.append hnd (List.nodup_singleton k) ?_
    intro a ha hb
    simp at hb
    subst hb
    rw [← mapHas_iff_mem_keys] at ha
    simp [hfalse] at ha

theorem cacheInv_get (st : CacheState) (prompt : String) (now : Nat)
    (h : cacheInv st) : cacheInv (cacheGet st prompt now).2 := by
  obtain ⟨hk, hnd⟩ := h
  unfold cacheGet
  dsimp only
  split
  · exact ⟨hk, hnd⟩
  · split
    · refine ⟨?_, ?_⟩
      · exact mapDelete_keys_pair _ _ _ hk
      · exact (mapDelete_keys_sublist st.cache _).nodup hnd
    · refine ⟨?_, hnd⟩
      dsimp only
      rw [mapSet_keys_of_has]
      · exact hk
      · rename_i item hitem _
        have : mapHas st.cache (generateKey prompt) = true := by
          simp [mapHas, hitem]
        rw [mapHas_iff_mem_keys] at this ⊢
        rw [← hk]
        exact this

theorem cacheInv_evictLRU (st : CacheState) (h : cacheInv st) :
    cacheInv (evictLRU st) := by
  obtain ⟨hk, hnd⟩ := h
  unfold evictLRU
  split
  · exact ⟨hk, hnd⟩
  · split
    · exact ⟨hk, hnd⟩
    · split
      · exact ⟨hk, hnd⟩
      · refine ⟨mapDelete_keys_pair _ _ _ hk,
          (mapDelete_keys_sublist st.cache _).nodup hnd⟩

theorem cacheInv_set (st : CacheState) (prompt : String) (data : CacheData)
    (now : Nat) (h : cacheInv st) : cacheInv (cacheSet st prompt data now) := by
  unfold cacheSet
  dsimp only
  have h2 : cacheInv (if st.maxCacheSize ≤ st.cache.length then evictLRU st else st) := by
    split
    · exact cacheInv_evictLRU st h
    · exact h
  obtain ⟨hk2, hnd2⟩ := h2
  refine ⟨?_, ?_⟩
  · exact mapSet_keys_pair _ _ _ _ _ hk2
  · exact mapSet_keys_nodup _ _ _ hnd2

theorem cacheInv_clear (st : CacheState) : cacheInv (cacheClear st) :=
  ⟨rfl, List.nodup_nil⟩

theorem cacheInv_clearExpired (st : CacheState) (now : Nat)
    (h : cacheInv st) : cacheInv (cacheClearExpired st now) := by
  obtain ⟨hk, hnd⟩ := h
  unfold cacheClearExpired cacheInv
  dsimp only
  refine ⟨?_, ?_⟩
  · exact filter_keys_eq st.cache st.accessTimes (mapGet st.cache)
      (fun item => ! decide (st.expirationTime < now - item.timestamp)) hk
      (fun kv hkv => mapGet_of_mem_nodup st.cache hnd kv hkv)
  · exact ((List.filter_sublist st.cache).map Prod.fst).nodup hnd

theorem cacheInv_tagItem (st : CacheState) (prompt : String)
    (tags : List String) (h : cacheInv st) : cacheInv (tagItem st prompt tags) := by
  obtain ⟨hk, hnd⟩ := h
  unfold tagItem
  dsimp only
  split
  · exact ⟨hk, hnd⟩
  · rename_i item hitem
    have hhas : mapHas st.cache (generateKey prompt) = true := by
      simp [mapHas, hitem]
    refine ⟨?_, ?_⟩
    · rw [mapSet_keys_of_has _ _ _ hhas]
      exact hk
    · rw [mapSet_keys_of_has _ _ _ hhas]
      exact hnd

theorem cacheInv_applyOp (st : CacheState) (op : CacheOp) (h : cacheInv st) :
    cacheInv (applyOp st op) := by
  cases op with
  | get prompt now => exact cacheInv_get st prompt now h
  | set prompt data now => exact cacheInv_set st prompt data now h
  | clear => exact cacheInv_clear st
  | clearExpired now => exact cacheInv_clearExpired st now h
  | tag prompt tags => exact cacheInv_tagItem st prompt tags h

theorem cacheInv_applyOps (st : CacheState) (ops : List CacheOp)
    (h : cacheInv st) : cacheInv (applyOps st ops) := by
  induction ops generalizing st with
  | nil => exact h
  | cons op ops ih => exact ih (applyOp st op) (cacheInv_applyOp st op h)

theorem mapHas_eq_of_keys_eq {β γ : Type} (m1 : List (String × β))
    (m2 : List (String × γ)) (h : m1.map Prod.fst = m2.map Prod.fst)
    (k : String) : mapHas m1 k = mapHas m2 k := by
  by_cases hm : k ∈ m1.map Prod.fst
  · rw [(mapHas_iff_mem_keys m1 k).mpr hm,
      (mapHas_iff_mem_keys m2 k).mpr (h ▸ hm)]
  · have h1 : mapHas m1 k = false :=
      Bool.eq_false_iff.mpr (fun hh => hm ((mapHas_iff_mem_keys m1 k).mp hh))
    have h2 : mapHas m2 k = false :=
      Bool.eq_false_iff.mpr (fun hh => hm (h ▸ (mapHas_iff_mem_keys m2 k).mp hh))
    rw [h1, h2]

/-- C10: starting from a fresh cache, any sequence of get / set / clear /
clearExpired / tagItem operations leaves the entry map and the access-time
map with exactly the same keys (in fact the same key sequence): every stored
entry has an access timestamp and every access timestamp belongs to a
stored entry. -/
theorem c10_cache_maps_in_sync (maxSize ttl : Nat) (ops : List CacheOp) :
    (applyOps (freshCache maxSize ttl) ops).cache.map Prod.fst =
      (applyOps (freshCache maxSize ttl) ops).accessTimes.map Prod.fst ∧
    ∀ k, mapHas (applyOps (freshCache maxSize ttl) ops).cache k =
      mapHas (applyOps (freshCache maxSize ttl) ops).accessTimes k := by
  obtain ⟨hk, hnd⟩ :=
    cacheInv_applyOps (freshCache maxSize ttl) ops (cacheInv_fresh maxSize ttl)
  exact ⟨hk, fun k => mapHas_eq_of_keys_eq _ _ hk k⟩

/-- C7: at capacity, inserting a fresh entry evicts exactly the entry with
the strictly oldest access time and nothing else; and a get refreshes an
entry's access time so that the next overflow insertion evicts some other
entry, not the freshly read one. -/
theorem c7_lru_eviction :
    (∀ (st : CacheState) (pNew : String) (d : CacheData) (now : Nat)
        (kOld : String) (tOld : Nat),
      cacheInv st →
      st.cache.length = st.maxCacheSize →
      (kOld, tOld) ∈ st.accessTimes →
      (∀ kv ∈ st.accessTimes, kv.1 ≠ kOld → tOld < kv.2) →
      kOld ≠ "" →
      mapHas st.cache (generateKey pNew) = false →
      (mapHas (cacheSet st pNew d now).cache (generateKey pNew) = true ∧
       mapHas (cacheSet st pNew d now).cache kOld = false ∧
       ∀ k, k ≠ kOld →
         mapHas (cacheSet st pNew d now).cache k =
           (k == generateKey pNew || mapHas st.cache k))) ∧
    (∀ (st : CacheState) (pRead pNew : String) (d : CacheData)
        (now now2 : Nat) (item : CacheItem),
      cacheInv st →
      mapGet st.cache (generateKey pRead) = some item →
      ¬ (st.expirationTime < now - item.timestamp) →
      (∃ kv ∈ st.accessTimes, kv.1 ≠ generateKey pRead ∧ kv.2 < now) →
      mapHas (cacheSet ((cacheGet st pRead now).2) pNew d now2).cache
        (generateKey pRead) = true) := by
  constructor
  · intro st pNew d now kOld tOld hinv hfull hmem hold hne hfresh
    obtain ⟨hk, hnd⟩ := hinv
    have hats_ne : st.accessTimes ≠ [] := by
      intro h0
      rw [h0] at hmem
      cases hmem
    obtain ⟨kv, hscan, hkvmem, hmin⟩ := evictScan_spec st.accessTimes hats_ne
    have hkv1 : kv.1 = kOld := by
      by_contra hC
      have h1 := hold kv hkvmem hC
      have h2 := hmin (kOld, tOld) hmem
      dsimp only at h2
      omega
    have hOldHas : mapHas st.cache kOld = true := by
      rw [mapHas_iff_mem_keys, hk]
      exact List.mem_map.mpr ⟨(kOld, tOld), hmem, rfl⟩
    have hOldNe : kOld ≠ generateKey pNew := by
      intro hC
      rw [hC] at hOldHas
      rw [hOldHas] at hfresh
      cases hfresh
    have hclen : ¬ st.cache.length = 0 := by
      intro h0
      have hlen := congrArg List.length hk
      simp only [List.length_map] at hlen
      rw [h0] at hlen
      rw [List.eq_nil_of_length_eq_zero hlen.symm] at hmem
      cases hmem
    have hev : evictLRU st =
        { st with cache := mapDelete st.cache kOld,
                  accessTimes := mapDelete st.accessTimes kOld } := by
      unfold evictLRU
      rw [if_neg hclen, hscan]
      dsimp only
      rw [hkv1, if_neg hne]
    have hset : cacheSet st pNew d now =
        { st with
          cache := mapSet (mapDelete st.cache kOld) (generateKey pNew)
            (CacheItem.mk d now),
          accessTimes := mapSet (mapDelete st.accessTimes kOld)
            (generateKey pNew) now } := by
      unfold cacheSet
      dsimp only
      rw [if_pos (le_of_eq hfull.symm), hev]
    rw [hset]
    dsimp only
    refine ⟨?_, ?_, ?_⟩
    · rw [mapHas_mapSet]
      simp
    · rw [mapHas_mapSet, mapHas_mapDelete]
      simp [hOldNe]
    · intro k hkne
      rw [mapHas_mapSet, mapHas_mapDelete]
      have hb : (k != kOld) = true := by simp [hkne]
      rw [hb]
      simp
  · intro st pRead pNew d now now2 item hinv hitem hnexp hother
    obtain ⟨hk, hnd⟩ := hinv
    have hndat : (st.accessTimes.map Prod.fst).Nodup := hk ▸ hnd
    have hst1 : (cacheGet st pRead now).2 =
        { st with accessTimes :=
            mapSet st.accessTimes (generateKey pRead) now } := by
      unfold cacheGet
      dsimp only
      rw [hitem]
      dsimp only
      rw [if_neg hnexp]
    obtain ⟨kvO, hkvOmem, hkvOne, hkvOlt⟩ := hother
    have hkvOmem2 : kvO ∈ mapSet st.accessTimes (generateKey pRead) now :=
      mem_mapSet_of_ne st.accessTimes kvO (generateKey pRead) now hkvOmem hkvOne
    have hReadHas : mapHas st.cache (generateKey pRead) = true := by
      simp [mapHas, hitem]
    rw [hst1]
    unfold cacheSet
    dsimp only
    have hEvictHas : mapHas (evictLRU { st with accessTimes := mapSet st.accessTimes (generateKey pRead) now }).cache (generateKey pRead) = true := by
      unfold evictLRU
      dsimp only
      split
      · exact hReadHas
      · obtain ⟨kv, hscan, hkvmem, hmin⟩ := evictScan_spec
          (mapSet st.accessTimes (generateKey pRead) now)
          (by
            intro h0
            rw [h0] at hkvOmem2
            cases hkvOmem2)
        rw [hscan]
        dsimp only
        have hne2 : kv.1 ≠ generateKey pRead := by
          intro hC
          have hkv2 : kv.2 = now := by
            apply mapSet_same_key_val st.accessTimes hndat
              (generateKey pRead) now kv.2
            have h3 : (generateKey pRead, kv.2) = kv := by
              rw [← hC]
            rw [h3]
            exact hkvmem
          have h2 := hmin kvO hkvOmem2
          omega
        split
        · exact hReadHas
        · dsimp only
          rw [mapHas_mapDelete]
          simp [Ne.symm hne2, hReadHas]
    split
    · rw [mapHas_mapSet, hEvictHas]
      simp
    · rw [mapHas_mapSet, hReadHas]
      simp

/-- Witness for C7: with two entries at capacity whose oldest-accessed key
is "97", inserting a third distinct prompt evicts exactly "97"; and after a
get refreshes "a" (key "97"), the next overflow insertion spares it. -/
theorem c7_lru_eviction_witness :
    lruWitnessState.cache.length = lruWitnessState.maxCacheSize ∧
    mapHas (cacheSet lruWitnessState ("c") (CacheData.mk ("C") none) 3).cache
      (generateKey ("c")) = true ∧
    mapHas (cacheSet lruWitnessState ("c") (CacheData.mk ("C") none) 3).cache
      ("97") = false ∧
    mapHas (cacheSet ((cacheGet lruWitnessState ("a") 5).2) ("c")
      (CacheData.mk ("C") none) 6).cache (generateKey ("a")) = true := by
  have hA := c7_lru_eviction.1 lruWitnessState ("c") (CacheData.mk ("C") none)
    3 ("97") 1 ⟨by decide, by decide⟩ (by decide) (by decide) (by decide)
    (by decide) (by decide)
  have hB := c7_lru_eviction.2 lruWitnessState ("a") ("c")
    (CacheData.mk ("C") none) 5 6 (CacheItem.mk (CacheData.mk ("A") none) 0)
    ⟨by decide, by decide⟩ (by decide) (by decide)
    ⟨(("98" : String), 2), by decide, by decide, by decide⟩
  exact ⟨by decide, hA.1, hA.2.1, hB⟩

end TextLeveling
